import Mathlib

/-
  Verification development for the raytmx repository (src/raytmx.h together with the
  vendored incremental XML tokenizer src/external/hoxml.h).

  The development is a shallow embedding: the C data structures become Lean structures,
  C unsigned 32-bit arithmetic becomes Nat arithmetic with explicit reduction modulo 2^32
  where overflow matters, C pointers into the working buffer become Nat offsets, and the
  working buffer itself becomes a list of byte values.  Stateful C code becomes explicit
  state passing.  External collaborator routines that the repository merely calls
  (raylib Base64 decoding, DEFLATE decompression) are modelled from the specification of
  their interface, and such definitions say so in their doc comments.
-/

/-- Modulus of the C type uint32_t. -/
def u32Mod : Nat := 4294967296

namespace Raytmx

/-- Model of the TmxTilesetTile record (raytmx.h lines 348-361) restricted to the fields
read by the last-identifier computation and the identifier-table population loops of
LoadTMX: the local tile id and whether the tile carries its own image.  The remaining
fields are never read by those computations. -/
structure TmxTilesetTile where
  id : Nat
  hasImage : Bool
  deriving Repr, DecidableEq

/-- Model of the TmxTileset record (raytmx.h lines 367-388) restricted to the fields read
by the LoadTMX resolver pass: first identifier, declared tile count, whether the tileset
has one shared image, and the list of explicitly defined tiles in document order. -/
structure TmxTileset where
  firstGid : Nat
  tileCount : Nat
  hasImage : Bool
  tiles : List TmxTilesetTile
  deriving Repr, DecidableEq

/-- Last tile identifier of a tileset as computed by LoadTMX (raytmx.h lines 924-928).
For a shared-image tileset the code computes firstGid + tileCount - 1; for a collection
of images with at least one explicit tile it computes firstGid + (id of the last tile in
document order) - 1; otherwise the zero-initialized field is left unchanged.  All
arithmetic is uint32_t arithmetic, so subtraction of 1 wraps modulo 2^32. -/
def lastGidOf (ts : TmxTileset) : Nat :=
  if ts.hasImage then (ts.firstGid + ts.tileCount + (u32Mod - 1)) % u32Mod
  else
    match ts.tiles.getLast? with
    | some t => (ts.firstGid + t.id + (u32Mod - 1)) % u32Mod
    | none => 0

/-- Last tile identifier of a tileset as the specification states it: firstId +
tileCount - 1 for shared-image tilesets, and firstId + the maximum explicit tile id for
collection-of-images tilesets.  This definition follows the wording of the spec and
exists to be compared against lastGidOf, which is translated from the source. -/
def specLastGid (ts : TmxTileset) : Nat :=
  if ts.hasImage then (ts.firstGid + ts.tileCount + (u32Mod - 1)) % u32Mod
  else ts.firstGid + (ts.tiles.map (fun t => t.id)).foldr max 0

/-- Length of the identifier-to-tile lookup table as computed by LoadTMX (raytmx.h lines
917-934): the maximum over all tilesets of lastGid + 1, starting from 0. -/
def gidsToTilesLengthOf (tilesets : List TmxTileset) : Nat :=
  tilesets.foldl
    (fun acc ts =>
      if acc < (lastGidOf ts + 1) % u32Mod then (lastGidOf ts + 1) % u32Mod else acc) 0

/-- Indices written into the identifier-to-tile table for one shared-image tileset
(raytmx.h lines 953-1010): every implicit id in [0, tileCount) is written at index
id + firstGid. -/
def sharedImageWriteGids (ts : TmxTileset) : List Nat :=
  (List.range ts.tileCount).map (fun id => (id + ts.firstGid) % u32Mod)

/-- Indices written into the identifier-to-tile table for one collection-of-images
tileset (raytmx.h lines 1011-1034): every explicit tile that has an image is written at
index firstGid + tile.id.  The C code stores this index in an int32_t; the model uses
the unsigned value, which agrees with the C value for indices below 2^31 (the inputs
used by the theorems stay far below that bound). -/
def collectionWriteGids (ts : TmxTileset) : List Nat :=
  (ts.tiles.filter (fun t => t.hasImage)).map (fun t => (ts.firstGid + t.id) % u32Mod)

/-- All indices written into the identifier-to-tile table by LoadTMX (raytmx.h lines
951-1035), in iteration order. -/
def mapWriteGids (tilesets : List TmxTileset) : List Nat :=
  tilesets.flatMap
    (fun ts => if ts.hasImage then sharedImageWriteGids ts else collectionWriteGids ts)

/-- A concrete collection-of-images tileset: firstGid 1, one explicit tile with local
id 0 carrying its own image.  Loading a map whose only tileset is this one exercises
the collection branch of the last-identifier computation and of the table population
loop of LoadTMX. -/
def collectionTileset : TmxTileset :=
  { firstGid := 1, tileCount := 1, hasImage := false, tiles := [{ id := 0, hasImage := true }] }

/-- Model of the TmxProperty record (raytmx.h lines 233-241).  The template merge code
only reads the name and copies records wholesale, so the typed value payload (type tag,
string, integer, float, boolean, color) is modelled by one opaque value string. -/
structure TmxProperty where
  name : String
  value : String
  deriving Repr, DecidableEq

/-- Whether the given list contains a property with the given name.  Models the linear
scans of raytmx.h lines 2673-2682. -/
def hasPropertyNamed (ps : List TmxProperty) (n : String) : Bool :=
  ps.any (fun p => p.name = n)

/-- Merged property list built when an object with a template closes and both lists are
present (raytmx.h lines 2653-2707): the staging list starts with the instance's
properties in order, then each template property is appended only when no property of
that name is already in the staging list. -/
def mergedPropertyList (acc : List TmxProperty) : List TmxProperty → List TmxProperty
  | [] => acc
  | t :: ts =>
      if hasPropertyNamed acc t.name then mergedPropertyList acc ts
      else mergedPropertyList (acc ++ [t]) ts

/-- Property merge of an instanced object with its template object (raytmx.h lines
2647-2709).  A missing array (NULL in C) is modelled by none: when the template has no
properties nothing happens; when only the template has properties its array pointer is
copied; otherwise the two lists are merged with instance precedence. -/
def mergeObjectProperties : Option (List TmxProperty) → Option (List TmxProperty) →
    Option (List TmxProperty)
  | inst, none => inst
  | none, some tprops => some tprops
  | some iprops, some tprops => some (mergedPropertyList iprops tprops)

/-- Model of the TmxObject record (raytmx.h lines 247-268) restricted to the fields the
object-close handler touches.  A C char* that may be NULL becomes an Option String; the
C doubles become exact rationals, which is faithful here because the merge code only
copies them and compares them with 0.0. -/
structure TmxObject where
  name : Option String
  typeString : Option String
  x : Rat
  y : Rat
  width : Rat
  height : Rat
  rotation : Rat
  gid : Nat
  visible : Bool
  properties : Option (List TmxProperty)
  deriving Repr, DecidableEq

/-- Defaults applied when an object element closes, before any template is consulted
(raytmx.h lines 2592-2602): a missing name or type string is replaced by the empty
string. -/
def applyObjectDefaults (o : TmxObject) : TmxObject :=
  let o1 := match o.name with
    | none => { o with name := some "" }
    | some _ => o
  match o1.typeString with
  | none => { o1 with typeString := some "" }
  | some _ => o1

/-- Scalar-field template merge (raytmx.h lines 2618-2641), applied to the object after
the defaults of applyObjectDefaults.  Each condition is translated verbatim, including
the typeString condition of line 2623, which tests that the instance string is not NULL. -/
def applyTemplateScalars (t o : TmxObject) : TmxObject :=
  let o := if t.name ≠ none ∧ o.name = none then { o with name := t.name } else o
  let o := if t.typeString ≠ none ∧ o.typeString ≠ none then
    { o with typeString := t.typeString } else o
  let o := if t.x ≠ 0 ∧ o.x = 0 then { o with x := t.x } else o
  let o := if t.y ≠ 0 ∧ o.y = 0 then { o with y := t.y } else o
  let o := if t.width ≠ 0 ∧ o.width = 0 then { o with width := t.width } else o
  let o := if t.height ≠ 0 ∧ o.height = 0 then { o with height := t.height } else o
  let o := if t.rotation ≠ 0 ∧ o.rotation = 0 then { o with rotation := t.rotation } else o
  let o := if t.gid ≠ 0 ∧ o.gid = 0 then { o with gid := t.gid } else o
  if ¬t.visible ∧ o.visible then { o with visible := false } else o

/-- Object-close handler (raytmx.h lines 2590-2712) for an object that may reference a
template: defaults are applied first, then, when the template document loaded, the
scalar fields are merged and the property lists are merged. -/
def handleObjectClose (o : TmxObject) (tmpl : Option TmxObject) : TmxObject :=
  let o := applyObjectDefaults o
  match tmpl with
  | none => o
  | some t =>
      let o := applyTemplateScalars t o
      { o with properties := mergeObjectProperties o.properties t.properties }

/-- A concrete instanced object for the template merge: no name attribute, an explicit
type "goblin", everything else at its parsed defaults. -/
def instanceObject : TmxObject :=
  { name := none, typeString := some "goblin", x := 0, y := 0, width := 0, height := 0,
    rotation := 0, gid := 0, visible := true, properties := none }

/-- A concrete template object defining name "cactus" and type "cactus".  A template
document's own object passes through the same close handler while the template file is
parsed, so its name and type strings are non-NULL. -/
def templateObject : TmxObject :=
  { name := some "cactus", typeString := some "cactus", x := 0, y := 0, width := 0,
    height := 0, rotation := 0, gid := 0, visible := true, properties := none }

/-! Tile-layer data decoding (raytmx.h lines 2401-2535) and the layer close handler
(lines 2352-2387). -/

/-- The character class of the C isspace predicate used by the base64 trim loop
(raytmx.h lines 2415-2419). -/
def isSpaceChar (c : Char) : Bool :=
  c.toNat = 32 ∨ c.toNat = 9 ∨ c.toNat = 10 ∨ c.toNat = 11 ∨ c.toNat = 12 ∨ c.toNat = 13

/-- Decimal digit test of the atoi model. -/
def isDigitChar (c : Char) : Bool :=
  48 ≤ c.toNat ∧ c.toNat ≤ 57

/-- Digit accumulation of the atoi model: consume decimal digits from the front,
stopping at the first non-digit. -/
def atoiDigits : List Char → Nat → Nat
  | [], acc => acc
  | c :: rest, acc =>
      if isDigitChar c then atoiDigits rest (acc * 10 + (c.toNat - 48)) else acc

/-- Conversion of one CSV entry to a tile identifier (raytmx.h line 2510): atoi on the
entry followed by the implicit conversion of the resulting int to the uint32_t
parameter of AddTileLayerTile.  The model captures the composite on the LP64,
two's-complement platforms the library targets: skip leading whitespace, honor one
optional sign, read decimal digits, and reduce the signed result modulo 2^32.  (Entries
longer than 15 characters overflow a fixed 16-byte buffer in the C code; no input used
here comes near that bound, a uint32_t needing at most 10 digits.) -/
def atoiToGid (cs : List Char) : Nat :=
  match cs.dropWhile isSpaceChar with
  | [] => 0
  | c :: rest =>
      if c = '-' then (u32Mod - atoiDigits rest 0 % u32Mod) % u32Mod
      else if c = '+' then atoiDigits rest 0 % u32Mod
      else atoiDigits (c :: rest) 0 % u32Mod

/-- Splitting loop of the CSV decoder (raytmx.h lines 2500-2511): characters are
accumulated into the current entry until a comma or the terminator; a comma ends the
entry and, when followed by the terminator, also ends the loop. -/
def csvGo (acc : List Char) : List Char → List (List Char)
  | [] => [acc]
  | c :: rest =>
      if c = ',' then acc :: (if rest.isEmpty then [] else csvGo [] rest)
      else csvGo (acc ++ [c]) rest

/-- Entry list of the CSV decoder: the outer while loop runs only when the content is
nonempty. -/
def csvEntries (cs : List Char) : List (List Char) :=
  if cs.isEmpty then [] else csvGo [] cs

/-- CSV branch of the tile-data decoder (raytmx.h lines 2496-2511): each entry becomes
one tile identifier via atoi. -/
def csvDecode (cs : List Char) : List Nat :=
  (csvEntries cs).map atoiToGid

/-- The base64 alphabet character for a sextet value below 64. -/
def b64CharOf (n : Nat) : Char :=
  ("ABCDEFGHIJKLMNOPQRSTUVWXYZabcdefghijklmnopqrstuvwxyz0123456789+/".toList).getD n 'A'

/-- The sextet value of a base64 alphabet character. -/
def b64ValOf (c : Char) : Option Nat :=
  if 'A' ≤ c ∧ c ≤ 'Z' then some (c.toNat - 65)
  else if 'a' ≤ c ∧ c ≤ 'z' then some (c.toNat - 97 + 26)
  else if '0' ≤ c ∧ c ≤ '9' then some (c.toNat - 48 + 52)
  else if c = '+' then some 62
  else if c = '/' then some 63
  else none

/-- Standard base64 encoding of a byte list, with '=' padding.  This is the canonical
form in which a document stores a tile layer's byte payload. -/
def b64Encode : List Nat → List Char
  | [] => []
  | [b1] => [b64CharOf (b1 / 4), b64CharOf (b1 % 4 * 16), '=', '=']
  | [b1, b2] =>
      [b64CharOf (b1 / 4), b64CharOf (b1 % 4 * 16 + b2 / 16), b64CharOf (b2 % 16 * 4), '=']
  | b1 :: b2 :: b3 :: rest =>
      b64CharOf (b1 / 4) :: b64CharOf (b1 % 4 * 16 + b2 / 16) ::
      b64CharOf (b2 % 16 * 4 + b3 / 64) :: b64CharOf (b3 % 64) :: b64Encode rest

/-- Modelled from the spec: the external DecodeDataBase64 collaborator routine invoked
at raytmx.h line 2423 is not part of this repository; section 4.4 of the specification
describes the step as a plain Base64 decode of the trimmed content into a byte buffer,
returning failure (NULL in C) for content that is not Base64.  Decoding proceeds in
four-character groups with '=' padding closing the final group. -/
def b64Decode : List Char → Option (List Nat)
  | [] => some []
  | c1 :: c2 :: c3 :: c4 :: rest =>
      if c3 = '=' ∧ c4 = '=' ∧ rest = [] then do
        let v1 ← b64ValOf c1
        let v2 ← b64ValOf c2
        pure [v1 * 4 + v2 / 16]
      else if c4 = '=' ∧ rest = [] then do
        let v1 ← b64ValOf c1
        let v2 ← b64ValOf c2
        let v3 ← b64ValOf c3
        pure [v1 * 4 + v2 / 16, v2 % 16 * 16 + v3 / 4]
      else do
        let v1 ← b64ValOf c1
        let v2 ← b64ValOf c2
        let v3 ← b64ValOf c3
        let v4 ← b64ValOf c4
        let tail ← b64Decode rest
        pure ((v1 * 4 + v2 / 16) :: (v2 % 16 * 16 + v3 / 4) :: (v3 % 4 * 64 + v4) :: tail)
  | _ => none

/-- The four little-endian bytes of a 32-bit tile identifier, the byte layout in which
a document's base64 payload stores identifiers. -/
def u32LeBytes (n : Nat) : List Nat :=
  [n % 256, n / 256 % 256, n / 65536 % 256, n / 16777216 % 256]

/-- Little-endian byte serialization of an identifier list. -/
def bytesOfGids (ids : List Nat) : List Nat :=
  ids.flatMap u32LeBytes

/-- Reassembly of identifiers from a decoded byte buffer (raytmx.h lines 2426-2432 and
2472-2476): every four bytes, little endian, become one identifier; a trailing group of
fewer than four bytes is dropped by the integer division of the length. -/
def gidsOfBytes : List Nat → List Nat
  | b0 :: b1 :: b2 :: b3 :: rest =>
      (b0 + 256 * b1 + 65536 * b2 + 16777216 * b3) :: gidsOfBytes rest
  | _ => []

/-- Diagnostics the tile-data decoder can emit through the log sink; each constructor
stands for one TraceLog error call in raytmx.h lines 2442-2493. -/
inductive LayerDiag where
  | badGzipHeader
  | badZlibHeader
  | inflateFailed
  | unsupportedCompression
  | base64DecodeFailed
  deriving Repr, DecidableEq

/-- Result of the data-element close handler: the identifiers staged through
AddTileLayerTile and the error diagnostics emitted. -/
structure DecodedLayerData where
  tiles : List Nat
  diags : List LayerDiag
  deriving Repr, DecidableEq

/-- Close handler of a tile layer's data element (raytmx.h lines 2401-2535),
parametrized by the external DEFLATE decompressor (raylib's DecompressData, not part of
this repository; none models a NULL return).  For base64 content the leading
whitespace is trimmed and the content decoded; uncompressed bytes are reassembled
directly; gzip content must begin 0x1F 0x8B 0x08 and is decompressed after a ten-byte
header, zlib content must begin 0x78 and is decompressed after a two-byte header; a
header mismatch, an unsupported compression name, or a failed decompression emits a
diagnostic and stages no tiles.  CSV content is split on commas.  The C code reads the
first header bytes even from an empty decode result (a heap over-read); the model reads
0 there, which matches the claims' inputs, none of which are empty.  The local tiles
variable of line 2409 is never assigned in the C code, so the block at lines 2514-2533
is dead and has no counterpart here; staged identifiers reach the layer through the
layer close handler. -/
def handleDataClose (inflate : List Nat → Option (List Nat)) (encoding : Option String)
    (compression : Option String) (content : List Char) : DecodedLayerData :=
  match encoding with
  | none => { tiles := [], diags := [] }
  | some enc =>
      if enc = "base64" then
        let trimmed := content.dropWhile isSpaceChar
        match b64Decode trimmed with
        | none => { tiles := [], diags := [LayerDiag.base64DecodeFailed] }
        | some decoded =>
            match compression with
            | none => { tiles := gidsOfBytes decoded, diags := [] }
            | some comp =>
                if comp = "gzip" ∨ comp = "zlib" then
                  let headerOk :=
                    if comp = "gzip" then
                      decoded.getD 0 0 = 31 ∧ decoded.getD 1 0 = 139 ∧ decoded.getD 2 0 = 8
                    else decoded.getD 0 0 = 120
                  if headerOk then
                    let ph := if comp = "gzip" then decoded.drop 10 else decoded.drop 2
                    match inflate ph with
                    | some decompressed =>
                        if 0 < decompressed.length then
                          { tiles := gidsOfBytes decompressed, diags := [] }
                        else { tiles := [], diags := [LayerDiag.inflateFailed] }
                    | none => { tiles := [], diags := [LayerDiag.inflateFailed] }
                  else
                    { tiles := [],
                      diags := [if comp = "gzip" then LayerDiag.badGzipHeader
                                else LayerDiag.badZlibHeader] }
                else { tiles := [], diags := [LayerDiag.unsupportedCompression] }
      else if enc = "csv" then { tiles := csvDecode content, diags := [] }
      else { tiles := [], diags := [] }

/-- Close handler of a layer element for its staged tile identifiers (raytmx.h lines
2352-2387).  Given the staged identifier list and the identifiers already on the layer
(NULL modelled by none), it returns the layer's final identifier array and whether the
duplicate-data warning was emitted: when the layer already has tiles and more were
staged, the staged ones are dropped with a warning; otherwise the staged list (possibly
empty) is flattened onto the layer. -/
def handleLayerClose (staged : List Nat) (existing : Option (List Nat)) :
    Option (List Nat) × Bool :=
  match existing with
  | some tiles =>
      if staged ≠ [] then (some tiles, true)
      else (some [], false)
  | none => (some staged, false)

/-- Model of the tile-layer fields read by the decoding pipeline (raytmx.h lines
191-198): declared dimensions, the data element's encoding and compression attributes,
and the identifier array. -/
structure TmxTileLayer where
  width : Nat
  height : Nat
  encoding : Option String
  compression : Option String
  tiles : Option (List Nat)
  deriving Repr, DecidableEq

/-- The tile-layer pipeline for one layer: the data element closes, then the layer
element closes, flattening the staged identifiers onto the layer. -/
def loadTileLayer (inflate : List Nat → Option (List Nat)) (layer : TmxTileLayer)
    (content : List Char) : TmxTileLayer :=
  let d := handleDataClose inflate layer.encoding layer.compression content
  { layer with tiles := (handleLayerClose d.tiles layer.tiles).1 }

/-- The identifier array a lone tile layer ends up with after its data and layer
elements close, starting from a layer with no previous tiles. -/
def tileLayerTiles (inflate : List Nat → Option (List Nat)) (encoding : Option String)
    (compression : Option String) (content : List Char) : List Nat :=
  ((loadTileLayer inflate
      { width := 0, height := 0, encoding := encoding, compression := compression,
        tiles := none } content).tiles).getD []

/-- Decimal digit characters of a natural number, least significant first. -/
def decRev (n : Nat) : List Char :=
  if h : n = 0 then []
  else
    Char.ofNat (n % 10 + 48) :: decRev (n / 10)
  decreasing_by exact Nat.div_lt_self (Nat.pos_of_ne_zero h) (by omega)

/-- Decimal digit characters of a natural number, most significant first, with 0
printed as "0"; the canonical form in which a document's CSV content stores one
identifier. -/
def decChars (n : Nat) : List Char :=
  if n = 0 then ['0'] else (decRev n).reverse

/-- Canonical CSV content for an identifier list: decimal entries joined by commas. -/
def csvOfGids : List Nat → List Char
  | [] => []
  | [n] => decChars n
  | n :: rest => decChars n ++ ',' :: csvOfGids rest

end Raytmx

namespace Hoxml

/-!
Shallow embedding of the incremental XML tokenizer of src/external/hoxml.h.

Pointers into the caller-supplied working buffer become Nat offsets; NULL pointers
become none.  The buffer itself is a list of byte values whose length is the C
buffer_length.  The node stack, a parent-linked chain packed inside the buffer in C,
becomes a list of node records carrying their buffer offsets: the head of the list is
the innermost node (the C stack pointer) and the tail of the list is the parent chain,
which is exactly the structure the C code maintains.  Node header bytes inside the
buffer are always zero in C (the buffer is zeroed at initialization and every pop
re-zeroes the popped region), and the C code never reads header bytes as string data,
so keeping the header fields in the node records while the byte list holds zeros in
the header regions is a faithful picture of the memory.  The layout constants below
are those of the LP64 platforms the library targets.

The identity of the XML input pointer matters to hoxml_parse (it compares the pointer
against the remembered one to decide whether the input was replaced), so the model
passes an address; the bytes of the chunk currently at that address are passed
alongside.
-/

/-- Byte size of the node header, sizeof(hoxml_node_t) on LP64: an 8-byte parent
pointer, an 8-byte end pointer, a 4-byte flag word, the one-byte tag field, and
padding. -/
def sizeofNode : Nat := 24

/-- Offset of the tag field inside a node, offsetof(hoxml_node_t, tag) on LP64.  A
node's string data starts here. -/
def tagFieldOffset : Nat := 20

/-- The value UINT32_MAX used by the decoder as its insufficient-data sentinel. -/
def u32Max : Nat := 4294967295

/-- Result and error codes of hoxml_parse (hoxml.h lines 50-66).  The code named
HOXML_ERROR_SYNTAX appears here as errorMalformed. -/
inductive Code where
  | errorInvalidInput
  | errorInternal
  | errorInsufficientMemory
  | errorUnexpectedEof
  | errorMalformed
  | errorEncoding
  | errorTagMismatch
  | errorInvalidDoctypeDecl
  | errorInvalidDocDecl
  | endOfDocument
  | elementBegin
  | elementEnd
  | attributeTok
  | piBegin
  | piEnd
  deriving Repr, DecidableEq

/-- Whether a code is one of the negative error values of the C enumeration. -/
def Code.isErrorCode : Code → Bool
  | .errorInvalidInput | .errorInternal | .errorInsufficientMemory | .errorUnexpectedEof
  | .errorMalformed | .errorEncoding | .errorTagMismatch | .errorInvalidDoctypeDecl
  | .errorInvalidDocDecl => true
  | _ => false

/-- Parser states (hoxml.h lines 146-204).  The C state named
HOXML_STATE_ERROR_SYNTAX appears here as stErrMalformed. -/
inductive PState where
  | stErrInternal
  | stErrInsufficientMemory
  | stErrUnexpectedEof
  | stErrMalformed
  | stErrEncoding
  | stErrTagMismatch
  | stErrInvalidDoctypeDecl
  | stErrInvalidDocDecl
  | stNone
  | stUtf8Bom1
  | stUtf8Bom2
  | stUtf16BeBom
  | stUtf16LeBom
  | stTagBegin
  | stTagEnd
  | stElementName1
  | stElementName2
  | stAttributeName1
  | stAttributeName2
  | stAttributeAssignment
  | stAttributeValue
  | stOpenTag
  | stCommentCdataOrDtdBegin
  | stCommentBegin
  | stComment
  | stCommentEnd1
  | stCommentEnd2
  | stCdataBegin1
  | stCdataBegin2
  | stCdataBegin3
  | stCdataBegin4
  | stCdataBegin5
  | stCdataBegin6
  | stCdataContent
  | stCdataEnd1
  | stCdataEnd2
  | stReferenceBegin
  | stReferenceEntity
  | stReferenceNumeric
  | stReferenceHex
  | stPiBegin
  | stPiTarget1
  | stPiTarget2
  | stPiContent
  | stPiEnd
  | stDtdBegin1
  | stDtdBegin2
  | stDtdBegin3
  | stDtdBegin4
  | stDtdBegin5
  | stDtdBegin6
  | stDtdBegin7
  | stDtdBegin8
  | stDtdName
  | stDtdContent
  | stDtdOpenBracket
  | stDone
  deriving Repr, DecidableEq

/-- Whether a state is one of the negative error states (state < HOXML_STATE_NONE). -/
def PState.isErr : PState → Bool
  | .stErrInternal | .stErrInsufficientMemory | .stErrUnexpectedEof | .stErrMalformed
  | .stErrEncoding | .stErrTagMismatch | .stErrInvalidDoctypeDecl | .stErrInvalidDocDecl => true
  | _ => false

/-- The numeric range check HOXML_STATE_TAG_BEGIN <= state <= HOXML_STATE_OPEN_TAG of
hoxml.h line 418, spelled out over the enumeration order. -/
def PState.inTagRange : PState → Bool
  | .stTagBegin | .stTagEnd | .stElementName1 | .stElementName2 | .stAttributeName1
  | .stAttributeName2 | .stAttributeAssignment | .stAttributeValue | .stOpenTag => true
  | _ => false

/-- The numeric range check HOXML_STATE_REFERENCE_BEGIN <= state <=
HOXML_STATE_REFERENCE_HEX of hoxml.h line 419. -/
def PState.inRefRange : PState → Bool
  | .stReferenceBegin | .stReferenceEntity | .stReferenceNumeric | .stReferenceHex => true
  | _ => false

/-- The loop condition HOXML_STATE_NONE <= state <= HOXML_STATE_DONE of hoxml.h line
415; every non-error state lies in that range. -/
def PState.isLoopState (s : PState) : Bool :=
  ¬ s.isErr

/-- Post states of the context (hoxml.h lines 205-208); HOXML_STATE_NONE doubles as
the empty post state in C. -/
inductive PostState where
  | psNone
  | psTagEnd
  | psAttributeEnd
  deriving Repr, DecidableEq

/-- Character encodings (hoxml.h lines 221-226), in enumeration order UNKNOWN, UTF-8,
UTF-16LE, UTF-16BE. -/
inductive Enc where
  | encUnknown
  | encUtf8
  | encUtf16le
  | encUtf16be
  deriving Repr, DecidableEq

/-- The comparison encoding >= HOXML_ENC_UTF_16_BE used for terminator and CDATA
trimming widths (hoxml.h lines 777, 1082, 1176).  In the C enumeration UTF-16LE sits
below UTF-16BE, so the comparison is true for UTF-16BE only. -/
def Enc.geUtf16Be : Enc → Bool
  | .encUtf16be => true
  | _ => false

/-- Node flags (hoxml.h lines 210-219). -/
def flagEndTag : Nat := 1

/-- Flag: the node is an empty element. -/
def flagEmptyElement : Nat := 2

/-- Flag: the node is a processing instruction. -/
def flagPi : Nat := 4

/-- Flag: the value string being parsed was opened with a double quote. -/
def flagDoubleQuote : Nat := 8

/-- Flag: the node's current string is null terminated. -/
def flagTerminated : Nat := 16

/-- Flag: the element-begun code was already returned for this node. -/
def flagBegun : Nat := 32

/-- Flag: the context depth should increase by one on the next hoxml_parse call. -/
def flagIncrementDepth : Nat := 64

/-- Flag: the context depth should decrease by one on the next hoxml_parse call. -/
def flagDecrementDepth : Nat := 128

/-- Test of a flag bit. -/
def testFlag (flags mask : Nat) : Bool :=
  flags &&& mask ≠ 0

/-- Clearing of a flag bit; the flag word fits in eight bits, so the complement is
taken in eight bits. -/
def clearFlagBit (flags mask : Nat) : Nat :=
  flags &&& (255 - mask)

/-- A decoded or encoded character: its codepoint together with its encoded bytes.
The C hoxml_character_t stores the bytes in the unsigned field encoded with a byte
count; an empty byte list models the count zero that the C routines use as their
failure value. -/
structure HChar where
  codepoint : Nat
  encBytes : List Nat
  deriving Repr, DecidableEq

/-- The C unsigned value of a char object holding byte b on the targeted platforms,
where char is signed and eight bits wide: (unsigned)(char)b sign-extends bytes of 128
and above. -/
def u32OfSChar (b : Nat) : Nat :=
  if b < 128 then b else u32Mod - 256 + b

/-- The little-endian unsigned value of c.encoded, the field the state machine
compares against byte-order-mark bytes (hoxml.h lines 482-488). -/
def HChar.encodedVal (c : HChar) : Nat :=
  (c.encBytes.enum.map (fun p => p.2 * 256 ^ p.1)).sum

/-- Byte count of a UTF-8 lead byte as computed by the shift-and-mask tests of hoxml.h
lines 1236-1243.  Those tests run on a sign-extended char with an arithmetic right
shift; evaluating them over all byte values gives exactly these ranges, with 0 for
bytes that match no pattern (continuation bytes and values above 0xF7). -/
def utf8LenOf (b : Nat) : Nat :=
  if b ≤ 127 then 1
  else if 192 ≤ b ∧ b ≤ 223 then 2
  else if 224 ≤ b ∧ b ≤ 239 then 3
  else if 240 ≤ b ∧ b ≤ 247 then 4
  else 0

/-- The test ((str[i] >> 2) & 0x3F) == 0x36 of hoxml.h lines 1248 and 1256 on a
sign-extended char, true exactly for the UTF-16 high-surrogate lead bytes 0xD8-0xDB. -/
def utf16HiLead (b : Nat) : Bool :=
  216 ≤ b ∧ b ≤ 219

/-- The test ((str[i] >> 2) & 0x3F) == 0x37 on a sign-extended char, true exactly for
the UTF-16 low-surrogate lead bytes 0xDC-0xDF. -/
def utf16LoLead (b : Nat) : Bool :=
  220 ≤ b ∧ b ≤ 223

/-- Character decoder (hoxml.h lines 1223-1321).  The str argument is the up-to-eight
byte window the caller passes (the context stream object); reads beyond the window
return 0, matching the zero bytes that surround real data in the model.  When the
computed byte count exceeds the available length the sentinel UINT32_MAX with no bytes
is returned.  The codepoint assemblies reproduce the C expressions including the
sign-extension of char operands described at u32OfSChar. -/
def decodeCharacter (str : List Nat) (strLength : Nat) (enc : Enc) : HChar :=
  let b0 := str.getD 0 0
  let b1 := str.getD 1 0
  let b2 := str.getD 2 0
  let b3 := str.getD 3 0
  let cbytes : Nat :=
    match enc with
    | .encUnknown => 1
    | .encUtf8 => utf8LenOf b0
    | .encUtf16be => if utf16HiLead b0 ∧ utf16LoLead b2 then 4 else 2
    | .encUtf16le => if utf16HiLead b1 ∧ utf16LoLead b3 then 4 else 2
  if strLength < cbytes then { codepoint := u32Max, encBytes := [] }
  else
    let cp : Nat :=
      match enc with
      | .encUnknown => u32OfSChar b0
      | .encUtf8 =>
          if cbytes = 1 then b0 % 128
          else if cbytes = 2 then b0 % 32 * 64 + b1 % 64
          else if cbytes = 3 then b0 % 16 * 4096 + b1 % 64 * 64 + b2 % 64
          else if cbytes = 4 then b0 % 8 * 262144 + b1 % 64 * 4096 + b2 % 64 * 64 + b3 % 64
          else 0
      | .encUtf16be =>
          if cbytes = 4 then
            (Nat.lor (Nat.lor (b0 % 4 * 262144) (u32OfSChar b1 * 65536 % u32Mod))
              (Nat.lor (b2 % 4 * 256) (u32OfSChar b3)) + 65536) % u32Mod
          else Nat.lor (u32OfSChar b0 * 256 % u32Mod) (u32OfSChar b1)
      | .encUtf16le =>
          if cbytes = 4 then
            (Nat.lor (Nat.lor (b1 % 4 * 262144) (u32OfSChar b0 * 65536 % u32Mod))
              (Nat.lor (b3 % 4 * 256) (u32OfSChar b2)) + 65536) % u32Mod
          else Nat.lor (u32OfSChar b1 * 256 % u32Mod) (u32OfSChar b0)
    { codepoint := cp, encBytes := (List.range cbytes).map (fun i => str.getD i 0) }

/-- Character encoder (hoxml.h lines 1324-1403), byte for byte as written in the
source, including its mask-and-shift expressions.  An invalid codepoint yields an
empty byte list (the C byte count zero). -/
def encodeCharacter (cp : Nat) (enc : Enc) : HChar :=
  match enc with
  | .encUnknown | .encUtf8 =>
      if cp ≤ 127 then { codepoint := cp, encBytes := [cp] }
      else if 128 ≤ cp ∧ cp ≤ 2047 then
        { codepoint := cp,
          encBytes := [Nat.lor 192 ((cp &&& 1984) >>> 6), Nat.lor 128 (cp % 256)] }
      else if (2048 ≤ cp ∧ cp ≤ 55295) ∨ (57344 ≤ cp ∧ cp ≤ 65535) then
        { codepoint := cp,
          encBytes := [Nat.lor 224 ((cp &&& 61440) >>> 12), Nat.lor 128 ((cp &&& 4032) >>> 6),
            Nat.lor 128 (cp &&& 63)] }
      else if 65536 ≤ cp ∧ cp ≤ 1114111 then
        { codepoint := cp,
          encBytes := [Nat.lor 240 ((cp &&& 1835008) >>> 18), Nat.lor 128 ((cp &&& 258048) >>> 12),
            Nat.lor 128 ((cp &&& 4032) >>> 6), Nat.lor 128 (cp &&& 63)] }
      else { codepoint := cp, encBytes := [] }
  | .encUtf16be =>
      if cp ≤ 55295 ∨ (57344 ≤ cp ∧ cp ≤ 65535) then
        { codepoint := cp, encBytes := [(cp &&& 65280) >>> 8, cp &&& 255] }
      else if 65536 ≤ cp ∧ cp ≤ 1114111 then
        let m := cp - 65536
        { codepoint := cp,
          encBytes := [Nat.lor 216 ((m &&& 786432) >>> 20), (m &&& 261120) >>> 18,
            Nat.lor 220 ((m &&& 768) >>> 8), m &&& 255] }
      else { codepoint := cp, encBytes := [] }
  | .encUtf16le =>
      if cp ≤ 55295 ∨ (57344 ≤ cp ∧ cp ≤ 65535) then
        { codepoint := cp, encBytes := [cp &&& 255, (cp &&& 65280) >>> 8] }
      else if 65536 ≤ cp ∧ cp ≤ 1114111 then
        let m := cp - 65536
        { codepoint := cp,
          encBytes := [m &&& 255, Nat.lor 220 ((m &&& 768) >>> 8), (m &&& 261120) >>> 18,
            Nat.lor 216 ((m &&& 786432) >>> 20)] }
      else { codepoint := cp, encBytes := [] }

/-- One stack node (hoxml.h lines 240-245) carrying its buffer offset, the offset of
the last byte of its data (the C end pointer), and its flag word.  The parent pointer
is the next entry of the context's stack list. -/
structure Node where
  start : Nat
  endOff : Nat
  flags : Nat
  deriving Repr, DecidableEq

/-- The hoxml context (hoxml.h lines 72-99).  Buffer pointers become offsets (none for
NULL); the XML input pointer becomes the pair of a remembered address and a remembered
length, with the iterator as an offset from that address; the stream object keeps its
eight bytes, with streamLength counting the bytes carried over from a previous input
string exactly as in C. -/
structure Context where
  tag : Option Nat
  attrib : Option Nat
  value : Option Nat
  content : Option Nat
  line : Int
  column : Int
  depth : Int
  isInit : Bool
  xmlAddr : Nat
  xmlLength : Nat
  encoding : Enc
  iterator : Nat
  buffer : List Nat
  referenceStart : Option Nat
  stack : List Node
  state : PState
  postState : PostState
  returnState : PState
  errorReturnState : PState
  stream : List Nat
  streamLength : Nat
  newlineCharacter : Nat
  deriving Repr, DecidableEq

/-- Reading one byte of the working buffer; out-of-range reads return the zero the C
memory would hold just past the used region. -/
def bufGet (buf : List Nat) (i : Nat) : Nat :=
  buf.getD i 0

/-- Writing a byte run into the working buffer at an offset. -/
def bufWrite (buf : List Nat) (off : Nat) : List Nat → List Nat
  | [] => buf
  | b :: rest => bufWrite (buf.set off b) (off + 1) rest

/-- Zeroing a byte run of the working buffer (memset with 0). -/
def bufZero (buf : List Nat) (off : Nat) : Nat → List Nat
  | 0 => buf
  | n + 1 => bufZero (buf.set off 0) (off + 1) n

/-- Overlay of a byte run into the eight-byte stream object at a byte position. -/
def streamWrite (s : List Nat) (off : Nat) (bytes : List Nat) : List Nat :=
  bufWrite s off bytes

/-- hoxml_init (hoxml.h lines 293-303): a zeroed context with line 1, the supplied
buffer length, and a zero-filled buffer.  The NULL input pointer is address 0; callers
of the model use nonzero addresses for real input. -/
def hoxml_init (bufferLength : Nat) : Context :=
  { tag := none, attrib := none, value := none, content := none,
    line := 1, column := 0, depth := 0, isInit := true,
    xmlAddr := 0, xmlLength := 0, encoding := .encUnknown, iterator := 0,
    buffer := List.replicate bufferLength 0, referenceStart := none, stack := [],
    state := .stNone, postState := .psNone, returnState := .stNone,
    errorReturnState := .stNone, stream := List.replicate 8 0, streamLength := 0,
    newlineCharacter := 0 }

/-- hoxml_realloc (hoxml.h lines 305-342).  Rebasing the node chain and the public
string pointers from one address space to the other is the identity on buffer offsets;
zeroing the new buffer and copying the old one over it extends the byte list with
zeros.  When the context sits in the insufficient-memory error state, the saved state
is restored. -/
def hoxml_realloc (ctx : Context) (newLength : Nat) : Context :=
  if ¬ ctx.isInit ∨ newLength ≤ ctx.buffer.length then ctx
  else
    let ctx := { ctx with
      buffer := ctx.buffer ++ List.replicate (newLength - ctx.buffer.length) 0 }
    if ctx.state = .stErrInsufficientMemory then
      { ctx with state := ctx.errorReturnState, errorReturnState := .stNone }
    else ctx

/-- Codepoints of a buffer string, decoding from an offset until a zero codepoint,
each step advancing by the decoded byte count; the pattern of hoxml_strcmp and
hoxml_strstr iteration. -/
def decodeSeqGo (buf : List Nat) (enc : Enc) : Nat → Nat → List Nat
  | _, 0 => []
  | off, fuel + 1 =>
      let c := decodeCharacter (buf.drop off) 65535 enc
      if c.codepoint = 0 then []
      else c.codepoint :: decodeSeqGo buf enc (off + c.encBytes.length) fuel

/-- Codepoints of the buffer string starting at an offset. -/
def decodeSeq (buf : List Nat) (off : Nat) (enc : Enc) : List Nat :=
  decodeSeqGo buf enc off (buf.length + 1)

/-- hoxml_strlen (hoxml.h lines 1431-1442).  The C loop advances its iterator by one
byte per decoded character (it++ rather than it += c.bytes), so the count is the
number of byte positions before the first position whose decode yields codepoint
zero. -/
def strlenGo (buf : List Nat) (enc : Enc) : Nat → Nat → Nat
  | _, 0 => 0
  | off, fuel + 1 =>
      let c := decodeCharacter (buf.drop off) 65535 enc
      if c.codepoint = 0 then 0 else 1 + strlenGo buf enc (off + 1) fuel

/-- Byte length of the buffer string at an offset, per hoxml_strlen. -/
def hoxml_strlen (buf : List Nat) (off : Nat) (enc : Enc) : Nat :=
  strlenGo buf enc off (buf.length + 1)

/-- The HOXML_TO_LOWER transform on a codepoint. -/
def toLowerCp (c : Nat) : Nat :=
  if 65 ≤ c ∧ c ≤ 90 then c + 32 else c

/-- Character comparison under a sensitivity mode (hoxml.h lines 1454-1455). -/
def cpEq (insensitive : Bool) (a b : Nat) : Bool :=
  if insensitive then toLowerCp a = toLowerCp b else a = b

/-- hoxml_strcmp (hoxml.h lines 1446-1467) on decoded codepoint sequences.  The C
routine walks both strings while neither has ended, fails on the first mismatching
character, and otherwise reports equality when the second string has ended - so a
second string that is a prefix of the first compares as equal, exactly as the source
does.  The Bool returned is the C "nonzero means equal" convention. -/
def strcmpSeq (insensitive : Bool) : List Nat → List Nat → Bool
  | c1 :: r1, c2 :: r2 => if cpEq insensitive c1 c2 then strcmpSeq insensitive r1 r2 else false
  | [], [] => true
  | [], _ :: _ => false
  | _ :: _, [] => true

/-- Codepoints of an ASCII string literal, the form in which the C code passes its
built-in comparison strings with the unknown encoding. -/
def strCps (s : String) : List Nat :=
  s.toList.map Char.toNat

/-- hoxml_strstr (hoxml.h lines 1471-1493) over the buffer: find the first offset, at
or after the given one, whose character equals the needle's first codepoint exactly
and whose decoded suffix has the needle as a prefix under the given sensitivity. -/
def strstrGo (buf : List Nat) (enc : Enc) (needle : List Nat) (insensitive : Bool) :
    Nat → Nat → Option Nat
  | _, 0 => none
  | off, fuel + 1 =>
      let c := decodeCharacter (buf.drop off) 65535 enc
      if c.codepoint = 0 then none
      else if c.codepoint = needle.headD 0 ∧
          strcmpSeq insensitive (decodeSeq buf off enc) needle then some off
      else strstrGo buf enc needle insensitive (off + c.encBytes.length) fuel

/-- Offset of the needle inside the buffer string starting at an offset, per
hoxml_strstr. -/
def hoxml_strstr (buf : List Nat) (off : Nat) (enc : Enc) (needle : List Nat)
    (insensitive : Bool) : Option Nat :=
  strstrGo buf enc needle insensitive off (buf.length + 1)

/-- The flag word of the stack head, 0 for the empty stack (the C code only reads head
flags in states whose guards ensure the stack is nonempty). -/
def headFlags (ctx : Context) : Nat :=
  match ctx.stack with
  | [] => 0
  | n :: _ => n.flags

/-- Applying a function to the head node's flag word. -/
def mapHeadFlags (ctx : Context) (f : Nat → Nat) : Context :=
  match ctx.stack with
  | [] => ctx
  | n :: rest => { ctx with stack := { n with flags := f n.flags } :: rest }

/-- hoxml_push_stack (hoxml.h lines 1025-1045): check that a new node header fits
after the current head (or at the buffer start for the root), and push a node whose
data region is empty.  On overflow the state saved for recovery is the current state
and the state becomes the insufficient-memory error. -/
def hoxml_push_stack (ctx : Context) : Context :=
  let overflow : Bool :=
    match ctx.stack with
    | [] => decide (sizeofNode ≥ ctx.buffer.length)
    | n :: _ => decide (n.endOff + 1 + sizeofNode ≥ ctx.buffer.length)
  if overflow then
    { ctx with errorReturnState := ctx.state, state := .stErrInsufficientMemory }
  else
    let start := match ctx.stack with
      | [] => 0
      | n :: _ => n.endOff + 1
    { ctx with stack := { start := start, endOff := start + tagFieldOffset - 1, flags := 0 } :: ctx.stack }

/-- hoxml_pop_stack (hoxml.h lines 1048-1059): drop the head node, null the public
string pointers, and zero the popped byte region. -/
def hoxml_pop_stack (ctx : Context) : Context :=
  match ctx.stack with
  | [] => ctx
  | n :: rest =>
      { ctx with
        stack := rest, tag := none, attrib := none, value := none, content := none,
        buffer := bufZero ctx.buffer n.start (n.endOff + 1 - n.start) }

/-- hoxml_append_character (hoxml.h lines 1062-1073): clear the terminated flag, check
capacity, and append the encoded bytes after the head node's end.  The flag is cleared
before the capacity check, as in the source.  With an empty stack the C code would
dereference NULL; the callers only run this in states guarded to have a node. -/
def hoxml_append_character (ctx : Context) (c : HChar) : Context :=
  match ctx.stack with
  | [] => ctx
  | n :: rest =>
      let n := { n with flags := clearFlagBit n.flags flagTerminated }
      if n.endOff + c.encBytes.length ≥ ctx.buffer.length then
        { ctx with
          stack := n :: rest, errorReturnState := ctx.state,
          state := .stErrInsufficientMemory }
      else
        { ctx with
          stack := { n with endOff := n.endOff + c.encBytes.length } :: rest,
          buffer := bufWrite ctx.buffer (n.endOff + 1) c.encBytes }

/-- hoxml_append_terminator (hoxml.h lines 1076-1091): a no-op when the head string is
already terminated; otherwise set the terminated flag, check capacity for the one- or
two-byte terminator, and append zero bytes.  The flag is set before the capacity
check, as in the source. -/
def hoxml_append_terminator (ctx : Context) : Context :=
  match ctx.stack with
  | [] => ctx
  | n :: rest =>
      if testFlag n.flags flagTerminated then ctx
      else
        let n := { n with flags := n.flags ||| flagTerminated }
        let bytes := if ctx.encoding.geUtf16Be then 2 else 1
        if n.endOff + bytes ≥ ctx.buffer.length then
          { ctx with
            stack := n :: rest, errorReturnState := ctx.state,
            state := .stErrInsufficientMemory }
        else
          { ctx with
            stack := { n with endOff := n.endOff + bytes } :: rest,
            buffer := bufWrite ctx.buffer (n.endOff + 1) (List.replicate bytes 0) }

/-- Reference kinds (hoxml.h lines 233-237). -/
inductive RefType where
  | entity
  | numeric
  | hex
  deriving Repr, DecidableEq

/-- hoxml_to_ascii (hoxml.h lines 1406-1428): up to sixteen decoded codepoints, each
truncated to a char. -/
def toAsciiList (buf : List Nat) (off : Nat) (enc : Enc) : List Nat :=
  ((decodeSeq buf off enc).take 16).map (fun cp => cp % 256)

/-- Whether a byte is one of the whitespace bytes strtoul skips. -/
def isSpaceByte (b : Nat) : Bool :=
  b = 32 ∨ b = 9 ∨ b = 10 ∨ b = 11 ∨ b = 12 ∨ b = 13

/-- Value of a digit byte in the given base, none when the byte is not a digit of the
base. -/
def digitValIn (base : Nat) (b : Nat) : Option Nat :=
  if 48 ≤ b ∧ b ≤ 57 ∧ b - 48 < base then some (b - 48)
  else if base = 16 ∧ 97 ≤ b ∧ b ≤ 102 then some (b - 87)
  else if base = 16 ∧ 65 ≤ b ∧ b ≤ 70 then some (b - 55)
  else none

/-- Digit-consuming loop of strtoul. -/
def strtoulDigits (base : Nat) : List Nat → Nat → Nat
  | [], acc => acc
  | b :: rest, acc =>
      match digitValIn base b with
      | some d => strtoulDigits base rest (acc * base + d)
      | none => acc

/-- The C strtoul on the byte list of a reference string: skip whitespace, honor one
optional sign, skip a 0x prefix in base 16, then accumulate digits.  References fit in
sixteen characters, far below the unsigned-long overflow clamp, which is therefore not
modelled. -/
def strtoulOf (base : Nat) (bytes : List Nat) : Nat :=
  let bytes := (bytes.takeWhile (fun b => b ≠ 0)).dropWhile isSpaceByte
  let bytes := match bytes with
    | 45 :: rest => rest
    | 43 :: rest => rest
    | l => l
  let bytes := if base = 16 then
      match bytes with
      | 48 :: 120 :: rest => rest
      | 48 :: 88 :: rest => rest
      | l => l
    else bytes
  strtoulDigits base bytes 0

/-- hoxml_end_reference (hoxml.h lines 1095-1150): resolve the reference text stored
on the head node, and on success erase it from the buffer, rewind the node end to the
reference start, append the referenced character, and return to the state saved when
the reference began.  An unknown entity or a zero numeric value sets the syntax error
state and leaves the text; a nonzero value whose encoding fails (byte count zero)
returns with all state unchanged. -/
def hoxml_end_reference (ctx : Context) (refType : RefType) : Context :=
  match ctx.stack, ctx.referenceStart with
  | node :: rest, some refOff =>
      let refSeq := decodeSeq ctx.buffer refOff ctx.encoding
      let result : Option HChar :=
        match refType with
        | .entity =>
            if strcmpSeq false refSeq (strCps "lt") then some (encodeCharacter 60 ctx.encoding)
            else if strcmpSeq false refSeq (strCps "gt") then some (encodeCharacter 62 ctx.encoding)
            else if strcmpSeq false refSeq (strCps "amp") then some (encodeCharacter 38 ctx.encoding)
            else if strcmpSeq false refSeq (strCps "apos") then some (encodeCharacter 39 ctx.encoding)
            else if strcmpSeq false refSeq (strCps "quot") then some (encodeCharacter 34 ctx.encoding)
            else none
        | .numeric =>
            let v := strtoulOf 10 (toAsciiList ctx.buffer refOff ctx.encoding)
            if v ≠ 0 then some (encodeCharacter (v % u32Mod) ctx.encoding) else none
        | .hex =>
            let v := strtoulOf 16 (toAsciiList ctx.buffer refOff ctx.encoding)
            if v ≠ 0 then some (encodeCharacter (v % u32Mod) ctx.encoding) else none
      match result with
      | none => { ctx with state := .stErrMalformed }
      | some c =>
          if c.encBytes = [] then ctx
          else
            let ctx := { ctx with
              buffer := bufZero ctx.buffer refOff (node.endOff + 1 - refOff),
              stack := { node with endOff := refOff - 1 } :: rest,
              referenceStart := none }
            let ctx := hoxml_append_character ctx c
            { ctx with state := ctx.returnState, returnState := .stNone }
  | _, _ => ctx

/-- hoxml_begin_tag (hoxml.h lines 1152-1158): push a node and, on success, save the
current state as the return state and enter the tag-begin state. -/
def hoxml_begin_tag (ctx : Context) : Context :=
  let ctx1 := hoxml_push_stack ctx
  if ctx1.state.isErr then ctx1
  else { ctx1 with returnState := ctx1.state, state := .stTagBegin }

/-- hoxml_end_tag (hoxml.h lines 1160-1190): enter the open-tag state with tag-end
cleanup pending; a dedicated end tag must match its parent's tag (the comparison has
the prefix-lenient semantics of hoxml_strcmp) and on a match the end-tag node is
popped, the public tag and content references are set from the parent, and the depth
decrement is scheduled; an empty element or processing instruction reports its end;
otherwise an element begins, with no cleanup and a depth increment scheduled.  With an
empty stack the C code would dereference NULL; the states from which this is called
are guarded, and the model returns the internal error for totality. -/
def hoxml_end_tag (ctx : Context) : Code × Context :=
  let ctx := { ctx with state := .stOpenTag, postState := .psTagEnd }
  match ctx.stack with
  | [] => (Code.errorInternal, { ctx with state := .stErrInternal })
  | node :: rest =>
      if testFlag node.flags flagEndTag then
        match rest with
        | [] => (Code.errorTagMismatch, { ctx with state := .stErrTagMismatch })
        | parent :: _ =>
            if strcmpSeq false
                (decodeSeq ctx.buffer (node.start + tagFieldOffset) ctx.encoding)
                (decodeSeq ctx.buffer (parent.start + tagFieldOffset) ctx.encoding) = false then
              (Code.errorTagMismatch, { ctx with state := .stErrTagMismatch })
            else
              let ctx := hoxml_pop_stack ctx
              let tagOff := parent.start + tagFieldOffset
              let contentOff := tagOff + hoxml_strlen ctx.buffer tagOff ctx.encoding +
                (if ctx.encoding.geUtf16Be then 2 else 1)
              let ctx := mapHeadFlags ctx (fun f => f ||| flagDecrementDepth)
              (Code.elementEnd, { ctx with tag := some tagOff, content := some contentOff })
      else if testFlag node.flags flagEmptyElement then (Code.elementEnd, ctx)
      else if testFlag node.flags flagPi then (Code.piEnd, ctx)
      else
        let ctx := mapHeadFlags ctx (fun f => f ||| flagIncrementDepth)
        (Code.elementBegin, { ctx with postState := .psNone })

/-- hoxml_post_state_cleanup (hoxml.h lines 1192-1220).  Pending tag-end cleanup pops
the node; when the popped node was the xml processing instruction the state returns to
the initial one, and when the pop empties the stack for an ordinary tag the document
has ended - on that path the C function returns before clearing the post state, which
the model reproduces.  Pending attribute-end cleanup erases the most recent attribute
and value strings from the buffer.  With an empty stack or a null attribute reference
the C code would dereference NULL; those branches are inert here and unreachable in
real runs. -/
def hoxml_post_state_cleanup (ctx : Context) : Bool × Context :=
  match ctx.postState with
  | .psNone => (false, ctx)
  | .psTagEnd =>
      match ctx.stack with
      | [] => (false, { ctx with postState := .psNone })
      | node :: _ =>
          let wasDecl := testFlag node.flags flagPi ∧
            strcmpSeq true (decodeSeq ctx.buffer (node.start + tagFieldOffset) ctx.encoding)
              (strCps "xml")
          let ctx1 := if wasDecl then { ctx with state := .stNone } else ctx
          let ctx2 := hoxml_pop_stack ctx1
          if ctx2.stack.isEmpty ∧ ¬ wasDecl then (true, ctx2)
          else (false, { ctx2 with postState := .psNone })
  | .psAttributeEnd =>
      match ctx.stack, ctx.attrib with
      | node :: rest, some attOff =>
          (false, { ctx with
            buffer := bufZero ctx.buffer attOff (node.endOff + 1 - attOff),
            stack := { node with endOff := attOff - 1 } :: rest,
            attrib := none, value := none, postState := .psNone })
      | _, _ => (false, { ctx with postState := .psNone })

/-- The HOXML_IS_NEW_LINE character class. -/
def isNewLineCp (cp : Nat) : Bool :=
  cp = 10 ∨ cp = 13

/-- The HOXML_IS_WHITESPACE character class. -/
def isWhitespaceCp (cp : Nat) : Bool :=
  cp = 32 ∨ cp = 9 ∨ isNewLineCp cp

/-- The HOXML_IS_ASCII_CHAR character class. -/
def isAsciiCharCp (cp : Nat) : Bool :=
  33 ≤ cp ∧ cp ≤ 127

/-- The HOXML_IS_CHAR_DATA character class. -/
def isCharDataCp (cp : Nat) : Bool :=
  cp ≠ 60 ∧ cp ≠ 38

/-- The HOXML_IS_ALPHA character class. -/
def isAlphaCp (cp : Nat) : Bool :=
  (97 ≤ cp ∧ cp ≤ 122) ∨ (65 ≤ cp ∧ cp ≤ 90)

/-- The HOXML_IS_NUMERIC character class. -/
def isNumericCp (cp : Nat) : Bool :=
  48 ≤ cp ∧ cp ≤ 57

/-- The HOXML_IS_NAME_START_CHAR character class. -/
def isNameStartCp (cp : Nat) : Bool :=
  isAlphaCp cp ∨ cp = 58 ∨ cp = 95 ∨ (192 ≤ cp ∧ cp ≤ 214) ∨ (216 ≤ cp ∧ cp ≤ 246) ∨ 248 ≤ cp

/-- The HOXML_IS_NAME_CHAR character class. -/
def isNameCharCp (cp : Nat) : Bool :=
  isNameStartCp cp ∨ cp = 45 ∨ cp = 46 ∨ isNumericCp cp

/-- The HOXML_IS_HEX_CHAR character class. -/
def isHexCharCp (cp : Nat) : Bool :=
  isNumericCp cp ∨ (97 ≤ cp ∧ cp ≤ 102) ∨ (65 ≤ cp ∧ cp ≤ 70)

/-- The HOXML_IS_VALUE_CHAR_DATA character class, parametrized by the node flags. -/
def isValueCharDataCp (flags cp : Nat) : Bool :=
  isCharDataCp cp ∧ ((testFlag flags flagDoubleQuote ∧ cp ≠ 34) ∨ cp ≠ 39)

/-- The encoding-declaration scan run when a processing instruction's content reaches
its closing question mark (hoxml.h lines 866-905).  The content is searched for
"encoding=" and then for the first quote of either kind; the quoted token is compared,
case-insensitively, against the expected names.  Before any encoding is known a
declared UTF-8 is adopted and a declared UTF-16 is an error (UTF-16 requires a byte
order mark); after a UTF-8 byte order mark anything but UTF-8 is an error; after a
UTF-16 byte order mark anything but UTF-16 is an error, and on this last path the C
code returns the error without entering the error state (line 901), which the model
reproduces.  A processing instruction that reaches the question mark with no content
would make the C code pass NULL to hoxml_strstr; that branch is inert here. -/
def piContentEncodingCheck (ctx : Context) : Option Code × Context :=
  match ctx.content with
  | none => (none, ctx)
  | some contentOff =>
      match hoxml_strstr ctx.buffer contentOff ctx.encoding (strCps "encoding=") false with
      | none => (none, ctx)
      | some declOff =>
          let encOff :=
            match hoxml_strstr ctx.buffer declOff ctx.encoding (strCps "\"") false with
            | some o => some o
            | none => hoxml_strstr ctx.buffer declOff ctx.encoding (strCps "'") false
          match encOff with
          | none => (none, ctx)
          | some eo =>
              let eseq := decodeSeq ctx.buffer eo ctx.encoding
              match ctx.encoding with
              | .encUnknown =>
                  if strcmpSeq true eseq (strCps "\"UTF-8\"") ∨
                      strcmpSeq true eseq (strCps "'UTF-8'") then
                    (none, { ctx with encoding := .encUtf8 })
                  else if strcmpSeq true eseq (strCps "\"UTF-16\"") ∨
                      strcmpSeq true eseq (strCps "'UTF-16'") then
                    (some Code.errorEncoding, { ctx with state := .stErrEncoding })
                  else (none, ctx)
              | .encUtf8 =>
                  if ¬ strcmpSeq true eseq (strCps "\"UTF-8\"") ∧
                      ¬ strcmpSeq true eseq (strCps "'UTF-8'") then
                    (some Code.errorEncoding, { ctx with state := .stErrEncoding })
                  else (none, ctx)
              | .encUtf16le | .encUtf16be =>
                  if ¬ strcmpSeq true eseq (strCps "\"UTF-16\"") ∧
                      ¬ strcmpSeq true eseq (strCps "'UTF-16'") then
                    (some Code.errorEncoding, ctx)
                  else (none, ctx)

/-- Continuation helper for the pattern "if the preceding append was successful": runs
the continuation only when the state is not an error state, matching the checks
state >= HOXML_STATE_NONE that follow every append in the source. -/
def ifOk (ctx : Context) (f : Context → Option Code × Context) : Option Code × Context :=
  if ctx.state.isErr then (none, ctx) else f ctx

/-- One execution of the state switch of hoxml_parse (hoxml.h lines 477-1004) on a
decoded character: the first component is the code to return immediately (none to keep
looping).  States with no case in the C switch (the error states handled before the
loop, the unused tag-end and second processing-instruction-target states, and the done
state) consume the character and continue, as the C switch does. -/
def stepState (ctx : Context) (c : HChar) : Option Code × Context :=
  let cp := c.codepoint
  match ctx.state with
  | .stNone =>
      if cp = 60 then (none, hoxml_begin_tag ctx)
      else if c.encodedVal = 239 then
        (none, { ctx with state := .stUtf8Bom1, column := ctx.column - 1 })
      else if c.encodedVal = 254 then
        (none, { ctx with state := .stUtf16BeBom, column := ctx.column - 1 })
      else if c.encodedVal = 255 then
        (none, { ctx with state := .stUtf16LeBom, column := ctx.column - 1 })
      else if ¬ isWhitespaceCp cp then (none, { ctx with state := .stErrMalformed })
      else (none, ctx)
  | .stUtf8Bom1 =>
      let ctx := { ctx with column := ctx.column - 1 }
      if c.encodedVal = 187 then (none, { ctx with state := .stUtf8Bom2 })
      else (none, { ctx with state := .stErrMalformed })
  | .stUtf8Bom2 =>
      let ctx := { ctx with column := ctx.column - 1 }
      if c.encodedVal = 191 then
        (none, { ctx with state := .stNone, encoding := .encUtf8 })
      else (none, { ctx with state := .stErrMalformed })
  | .stUtf16BeBom =>
      let ctx := { ctx with column := ctx.column - 1 }
      if c.encodedVal = 255 then
        (none, { ctx with state := .stNone, encoding := .encUtf16be })
      else (none, { ctx with state := .stErrMalformed })
  | .stUtf16LeBom =>
      let ctx := { ctx with column := ctx.column - 1 }
      if c.encodedVal = 254 then
        (none, { ctx with state := .stNone, encoding := .encUtf16le })
      else (none, { ctx with state := .stErrMalformed })
  | .stTagBegin =>
      if cp = 63 then
        (none, mapHeadFlags { ctx with state := .stPiBegin } (fun f => f ||| flagPi))
      else if cp = 47 then
        (none, mapHeadFlags ctx (fun f => f ||| flagEndTag))
      else if cp = 33 then
        (none, { ctx with state := .stCommentCdataOrDtdBegin })
      else if isNameStartCp cp then
        let ctx := hoxml_append_character ctx c
        ifOk ctx fun ctx =>
          match ctx.stack with
          | [] => (none, { ctx with state := .stElementName1 })
          | n :: _ =>
              (none, { ctx with state := .stElementName1, tag := some (n.start + tagFieldOffset) })
      else (none, { ctx with state := .stErrMalformed })
  | .stElementName1 =>
      if cp = 62 then
        let ctx := hoxml_append_terminator ctx
        ifOk ctx fun ctx =>
          let (code, ctx) := hoxml_end_tag ctx
          (some code, ctx)
      else if cp = 47 then
        if testFlag (headFlags ctx) flagEndTag then (none, { ctx with state := .stErrMalformed })
        else
          let ctx := hoxml_append_terminator ctx
          ifOk ctx fun ctx =>
            (some Code.elementBegin, mapHeadFlags ctx (fun f => f ||| flagEmptyElement))
      else if isWhitespaceCp cp then
        let ctx := hoxml_append_terminator ctx
        ifOk ctx fun ctx =>
          (some Code.elementBegin,
            mapHeadFlags { ctx with state := .stElementName2 } (fun f => f ||| flagBegun))
      else if isNameCharCp cp then (none, hoxml_append_character ctx c)
      else (none, { ctx with state := .stErrMalformed })
  | .stElementName2 =>
      if cp = 62 then
        let ctx := hoxml_append_terminator ctx
        ifOk ctx fun ctx =>
          if testFlag (headFlags ctx) flagBegun ∧
              ¬ testFlag (headFlags ctx) flagEmptyElement then
            let (_, ctx) := hoxml_end_tag ctx
            let (_, ctx) := hoxml_post_state_cleanup ctx
            (none, ctx)
          else
            let (code, ctx) := hoxml_end_tag ctx
            (some code, ctx)
      else if cp = 47 then
        if testFlag (headFlags ctx) flagEndTag then (none, { ctx with state := .stErrMalformed })
        else (none, mapHeadFlags ctx (fun f => f ||| flagEmptyElement))
      else if isNameStartCp cp then
        let ctx := hoxml_append_character ctx c
        ifOk ctx fun ctx =>
          match ctx.stack with
          | [] => (none, { ctx with state := .stAttributeName1 })
          | n :: _ => (none, { ctx with state := .stAttributeName1, attrib := some n.endOff })
      else if ¬ isWhitespaceCp cp then (none, { ctx with state := .stErrMalformed })
      else (none, ctx)
  | .stAttributeName1 =>
      if cp = 61 then
        let ctx := hoxml_append_terminator ctx
        ifOk ctx fun ctx => (none, { ctx with state := .stAttributeAssignment })
      else if isNameCharCp cp then (none, hoxml_append_character ctx c)
      else if isWhitespaceCp cp then
        let ctx := hoxml_append_terminator ctx
        ifOk ctx fun ctx => (none, { ctx with state := .stAttributeName2 })
      else (none, { ctx with state := .stErrMalformed })
  | .stAttributeName2 =>
      if cp = 61 then (none, { ctx with state := .stAttributeAssignment })
      else if ¬ isWhitespaceCp cp then (none, { ctx with state := .stErrMalformed })
      else (none, ctx)
  | .stAttributeAssignment =>
      if cp = 34 ∨ cp = 39 then
        let ctx := { ctx with state := .stAttributeValue }
        let ctx := if cp = 34 then mapHeadFlags ctx (fun f => f ||| flagDoubleQuote)
          else mapHeadFlags ctx (fun f => clearFlagBit f flagDoubleQuote)
        match ctx.stack with
        | [] => (none, ctx)
        | n :: _ => (none, { ctx with value := some (n.endOff + 1) })
      else if ¬ isWhitespaceCp cp then (none, { ctx with state := .stErrMalformed })
      else (none, ctx)
  | .stAttributeValue =>
      if (testFlag (headFlags ctx) flagDoubleQuote ∧ cp = 34) ∨
          (¬ testFlag (headFlags ctx) flagDoubleQuote ∧ cp = 39) then
        let ctx := hoxml_append_terminator ctx
        ifOk ctx fun ctx =>
          (some Code.attributeTok,
            { ctx with state := .stElementName2, postState := .psAttributeEnd })
      else if cp = 38 then
        (none, { ctx with state := .stReferenceBegin, returnState := .stAttributeValue })
      else if isValueCharDataCp (headFlags ctx) cp then (none, hoxml_append_character ctx c)
      else (none, { ctx with state := .stErrMalformed })
  | .stOpenTag =>
      if cp = 60 then (none, hoxml_begin_tag ctx)
      else if cp = 38 then
        (none, { ctx with state := .stReferenceBegin, returnState := .stOpenTag })
      else if isCharDataCp cp then (none, hoxml_append_character ctx c)
      else (none, { ctx with state := .stErrMalformed })
  | .stCommentCdataOrDtdBegin =>
      if cp = 45 then (none, { ctx with state := .stCommentBegin })
      else if cp = 91 then (none, { ctx with state := .stCdataBegin1 })
      else if cp = 68 then
        if ctx.returnState ≠ .stNone then
          (some Code.errorInvalidDoctypeDecl, { ctx with state := .stErrInvalidDoctypeDecl })
        else (none, { ctx with state := .stDtdBegin1 })
      else (none, { ctx with state := .stErrMalformed })
  | .stCommentBegin =>
      let ctx := hoxml_pop_stack ctx
      if cp = 45 then (none, { ctx with state := .stComment })
      else (none, { ctx with state := .stErrMalformed })
  | .stComment =>
      if cp = 45 then (none, { ctx with state := .stCommentEnd1 })
      else (none, { ctx with state := .stComment })
  | .stCommentEnd1 =>
      if cp = 45 then (none, { ctx with state := .stCommentEnd2 })
      else (none, { ctx with state := .stComment })
  | .stCommentEnd2 =>
      if cp = 62 then (none, { ctx with state := ctx.returnState })
      else (none, { ctx with state := .stErrMalformed })
  | .stCdataBegin1 =>
      let ctx := hoxml_pop_stack ctx
      if cp = 67 then (none, { ctx with state := .stCdataBegin2 })
      else (none, { ctx with state := .stErrMalformed })
  | .stCdataBegin2 =>
      if cp = 68 then (none, { ctx with state := .stCdataBegin3 })
      else (none, { ctx with state := .stErrMalformed })
  | .stCdataBegin3 =>
      if cp = 65 then (none, { ctx with state := .stCdataBegin4 })
      else (none, { ctx with state := .stErrMalformed })
  | .stCdataBegin4 =>
      if cp = 84 then (none, { ctx with state := .stCdataBegin5 })
      else (none, { ctx with state := .stErrMalformed })
  | .stCdataBegin5 =>
      if cp = 65 then (none, { ctx with state := .stCdataBegin6 })
      else (none, { ctx with state := .stErrMalformed })
  | .stCdataBegin6 =>
      if cp = 91 then (none, { ctx with state := .stCdataContent })
      else (none, { ctx with state := .stErrMalformed })
  | .stCdataContent =>
      let ctx := hoxml_append_character ctx c
      ifOk ctx fun ctx =>
        if cp = 93 then (none, { ctx with state := .stCdataEnd1 })
        else (none, ctx)
  | .stCdataEnd1 =>
      let ctx := hoxml_append_character ctx c
      ifOk ctx fun ctx =>
        if cp = 93 then (none, { ctx with state := .stCdataEnd2 })
        else (none, { ctx with state := .stCdataContent })
  | .stCdataEnd2 =>
      if cp = 62 then
        let bytes := if ctx.encoding.geUtf16Be then 4 else 2
        match ctx.stack with
        | [] => (none, { ctx with state := .stOpenTag })
        | n :: rest =>
            (none, { ctx with
              state := .stOpenTag,
              buffer := bufZero ctx.buffer (n.endOff + 1 - bytes) bytes,
              stack := { n with endOff := n.endOff - bytes } :: rest })
      else
        let ctx := hoxml_append_character ctx c
        ifOk ctx fun ctx => (none, { ctx with state := .stCdataContent })
  | .stReferenceBegin =>
      let ctx := match ctx.stack with
        | [] => ctx
        | n :: _ => { ctx with referenceStart := some (n.endOff + 1) }
      if cp = 35 then (none, { ctx with state := .stReferenceNumeric })
      else if cp = 97 ∨ cp = 103 ∨ cp = 108 ∨ cp = 113 then
        let ctx := hoxml_append_character ctx c
        ifOk ctx fun ctx => (none, { ctx with state := .stReferenceEntity })
      else (none, { ctx with state := .stErrMalformed })
  | .stReferenceEntity =>
      if cp = 59 then (none, hoxml_end_reference ctx .entity)
      else if isAsciiCharCp cp then (none, hoxml_append_character ctx c)
      else (none, { ctx with state := .stErrMalformed })
  | .stReferenceNumeric =>
      if cp = 120 then (none, { ctx with state := .stReferenceHex })
      else if cp = 59 then (none, hoxml_end_reference ctx .numeric)
      else if isNumericCp cp then (none, hoxml_append_character ctx c)
      else (none, { ctx with state := .stErrMalformed })
  | .stReferenceHex =>
      if cp = 59 then (none, hoxml_end_reference ctx .hex)
      else if isHexCharCp cp then (none, hoxml_append_character ctx c)
      else (none, { ctx with state := .stErrMalformed })
  | .stPiBegin =>
      if isNameStartCp cp then
        let ctx := hoxml_append_character ctx c
        ifOk ctx fun ctx =>
          match ctx.stack with
          | [] => (none, { ctx with state := .stPiTarget1 })
          | n :: _ =>
              (none, { ctx with state := .stPiTarget1, tag := some (n.start + tagFieldOffset) })
      else (none, { ctx with state := .stErrMalformed })
  | .stPiTarget1 =>
      if isWhitespaceCp cp then
        match ctx.stack with
        | [] => (none, ctx)
        | node :: rest =>
            if strcmpSeq true
                (decodeSeq ctx.buffer (node.start + tagFieldOffset) ctx.encoding)
                (strCps "xml") ∧ rest ≠ [] then
              (some Code.errorInvalidDocDecl, { ctx with state := .stErrInvalidDocDecl })
            else
              let ctx := hoxml_append_terminator ctx
              ifOk ctx fun ctx =>
                (some Code.piBegin, { ctx with state := .stPiContent })
      else if cp = 63 then
        let ctx := hoxml_append_terminator ctx
        ifOk ctx fun ctx => (none, { ctx with state := .stPiEnd })
      else if isNameCharCp cp then (none, hoxml_append_character ctx c)
      else (none, { ctx with state := .stErrMalformed })
  | .stPiContent =>
      if cp = 63 then
        match piContentEncodingCheck ctx with
        | (some code, ctx) => (some code, ctx)
        | (none, ctx) =>
            let ctx := hoxml_append_terminator ctx
            ifOk ctx fun ctx => (none, { ctx with state := .stPiEnd })
      else
        let ctx := match ctx.content, ctx.stack with
          | none, n :: _ => { ctx with content := some (n.endOff + 1) }
          | _, _ => ctx
        (none, hoxml_append_character ctx c)
  | .stDtdBegin1 =>
      let ctx := hoxml_pop_stack ctx
      if cp = 79 then (none, { ctx with state := .stDtdBegin2 })
      else (none, { ctx with state := .stErrMalformed })
  | .stDtdBegin2 =>
      if cp = 67 then (none, { ctx with state := .stDtdBegin3 })
      else (none, { ctx with state := .stErrMalformed })
  | .stDtdBegin3 =>
      if cp = 84 then (none, { ctx with state := .stDtdBegin4 })
      else (none, { ctx with state := .stErrMalformed })
  | .stDtdBegin4 =>
      if cp = 89 then (none, { ctx with state := .stDtdBegin5 })
      else (none, { ctx with state := .stErrMalformed })
  | .stDtdBegin5 =>
      if cp = 80 then (none, { ctx with state := .stDtdBegin6 })
      else (none, { ctx with state := .stErrMalformed })
  | .stDtdBegin6 =>
      if cp = 69 then (none, { ctx with state := .stDtdBegin7 })
      else (none, { ctx with state := .stErrMalformed })
  | .stDtdBegin7 =>
      if isWhitespaceCp cp then (none, { ctx with state := .stDtdBegin8 })
      else (none, { ctx with state := .stErrMalformed })
  | .stDtdBegin8 =>
      if isNameStartCp cp then (none, { ctx with state := .stDtdName })
      else if ¬ isWhitespaceCp cp then (none, { ctx with state := .stErrMalformed })
      else (none, ctx)
  | .stDtdName =>
      if isWhitespaceCp cp then (none, { ctx with state := .stDtdContent })
      else if ¬ isNameCharCp cp then (none, { ctx with state := .stErrMalformed })
      else (none, ctx)
  | .stDtdContent =>
      if cp = 91 then (none, { ctx with state := .stDtdOpenBracket })
      else if cp = 62 then (none, { ctx with state := .stNone })
      else if ¬ isCharDataCp cp then (none, { ctx with state := .stErrMalformed })
      else (none, ctx)
  | .stDtdOpenBracket =>
      if cp = 93 then (none, { ctx with state := .stDtdContent })
      else (none, ctx)
  | .stPiEnd =>
      if cp = 62 then
        let (code, ctx) := hoxml_end_tag ctx
        (some code, ctx)
      else (none, { ctx with state := .stErrMalformed })
  | _ => (none, ctx)

/-- Line and column accounting of the parse loop (hoxml.h lines 453-460): the first
newline character seen fixes the character that counts lines (so \r\n files count each
pair once), a counted newline resets the column, and any other character advances
it. -/
def lineColUpdate (ctx : Context) (c : HChar) : Context :=
  if isNewLineCp c.codepoint then
    let ctx := if ctx.newlineCharacter = 0 then
        { ctx with newlineCharacter := c.codepoint } else ctx
    let ctx := if c.codepoint = ctx.newlineCharacter then
        { ctx with line := ctx.line + 1 } else ctx
    { ctx with column := 0 }
  else { ctx with column := ctx.column + 1 }

/-- Post-loop handling of hoxml_parse (hoxml.h lines 1007-1021): an insufficient
memory state undoes the iteration that could not be applied - the iterator, carried
stream length, and column are restored so the same character is consumed again after
the caller grows the buffer - and any other error state falls through to the syntax
error return. -/
def afterLoop (ctx : Context) (prevIt prevSl : Nat) : Code × Context :=
  if ctx.state = .stErrInsufficientMemory then
    (Code.errorInsufficientMemory,
      { ctx with iterator := prevIt, streamLength := prevSl, column := ctx.column - 1 })
  else (Code.errorMalformed, ctx)

/-- The character-consuming loop of hoxml_parse (hoxml.h lines 412-1005).  Each
iteration checks the nesting-dependent states against an empty stack, assembles up to
four bytes from the input into the stream object (appending to carried bytes when a
character straddled input strings), decodes one character, handles end-of-input,
updates line and column, advances the iterator by the freshly consumed bytes, and runs
the state switch.  The fuel argument only guards against the (unreachable in the runs
proved about) possibility of a zero-byte advance, in which the C loop would not
terminate either; none models that divergence. -/
def parseLoop : Nat → Context → List Nat → Nat → Nat → Option (Code × Context)
  | 0, _, _, _, _ => none
  | fuel + 1, ctx, chunk, prevIt, prevSl =>
      if ¬ ctx.state.isLoopState then some (afterLoop ctx prevIt prevSl)
      else if (ctx.state.inTagRange ∨ ctx.state.inRefRange) ∧ ctx.stack = [] then
        some (Code.errorInternal, { ctx with state := .stErrInternal })
      else
        let remaining := ctx.xmlLength - ctx.iterator
        let btc0 := min 4 remaining
        let btc := if ctx.streamLength > 0 then btc0 - ctx.streamLength else btc0
        let chunkPart := (List.range btc).map (fun i => bufGet chunk (ctx.iterator + i))
        let stream := if ctx.streamLength > 0 then
            streamWrite ctx.stream ctx.streamLength chunkPart
          else streamWrite ctx.stream 0 chunkPart
        let ctx := { ctx with stream := stream }
        let c := decodeCharacter stream remaining ctx.encoding
        if c.codepoint = 0 ∨ c.codepoint = u32Max then
          some (Code.errorUnexpectedEof,
            { ctx with
              streamLength := btc, errorReturnState := ctx.state,
              state := .stErrUnexpectedEof })
        else
          let ctx := lineColUpdate ctx c
          let prevIt := ctx.iterator
          let prevSl := ctx.streamLength
          let ctx := { ctx with
            iterator := ctx.iterator + (c.encBytes.length - ctx.streamLength),
            streamLength := 0 }
          match stepState ctx c with
          | (some code, ctx) => some (code, ctx)
          | (none, ctx) => parseLoop fuel ctx chunk prevIt prevSl

/-- The pending depth adjustments applied at the top of hoxml_parse (hoxml.h lines
348-358). -/
def depthFlags (ctx : Context) : Context :=
  match ctx.stack with
  | [] => ctx
  | n :: rest =>
      let inc := testFlag n.flags flagIncrementDepth
      let d1 := if inc then ctx.depth + 1 else ctx.depth
      let f1 := if inc then clearFlagBit n.flags flagIncrementDepth else n.flags
      let dec := testFlag f1 flagDecrementDepth
      let d2 := if dec then d1 - 1 else d1
      let f2 := if dec then clearFlagBit f1 flagDecrementDepth else f1
      { ctx with depth := d2, stack := { n with flags := f2 } :: rest }

/-- Continuation of hoxml_parse after the state dispatch (hoxml.h lines 399-415): run
any pending cleanup (which may find the document ended), invalidate the remembered
input variables when the input pointer changed, and enter the loop. -/
def parseMain (ctx : Context) (addr : Nat) (chunk : List Nat) : Option (Code × Context) :=
  let r := hoxml_post_state_cleanup ctx
  if r.1 then some (Code.endOfDocument, r.2)
  else
    let ctx := r.2
    let ctx := if ctx.xmlAddr ≠ addr then
        { ctx with xmlAddr := addr, xmlLength := chunk.length, iterator := 0 }
      else ctx
    parseLoop (ctx.xmlLength + chunk.length + 8) ctx chunk ctx.iterator ctx.streamLength

/-- hoxml_parse (hoxml.h lines 344-1022).  The address argument is the identity of the
input pointer; the chunk holds the bytes currently at that address.  Invalid input is
rejected, pending depth adjustments are applied, the terminal state dispatch runs (the
unexpected-end-of-file state peeks at the new input, resuming only when a character
can now be decoded), then cleanup, input invalidation, and the loop.  none stands for
a run on which the C loop would not terminate. -/
def hoxml_parse (ctx : Context) (addr : Nat) (chunk : List Nat) : Option (Code × Context) :=
  if ¬ ctx.isInit ∨ chunk.length = 0 then some (Code.errorInvalidInput, ctx)
  else
    let ctx := depthFlags ctx
    match ctx.state with
    | .stDone => some (Code.endOfDocument, ctx)
    | .stErrInternal => some (Code.errorInternal, ctx)
    | .stErrInsufficientMemory => some (Code.errorInsufficientMemory, ctx)
    | .stErrMalformed => some (Code.errorMalformed, ctx)
    | .stErrEncoding => some (Code.errorEncoding, ctx)
    | .stErrTagMismatch => some (Code.errorTagMismatch, ctx)
    | .stErrInvalidDocDecl => some (Code.errorInvalidDocDecl, ctx)
    | .stErrUnexpectedEof =>
        let btc0 := min 4 chunk.length
        let btc := if ctx.streamLength > 0 then btc0 - ctx.streamLength else btc0
        let chunkPart := (List.range btc).map (fun i => bufGet chunk i)
        let stream := if ctx.streamLength > 0 then
            streamWrite ctx.stream ctx.streamLength chunkPart
          else streamWrite ctx.stream 0 chunkPart
        let c := decodeCharacter stream chunk.length ctx.encoding
        if c.codepoint = 0 ∨ c.codepoint = u32Max then
          some (Code.errorUnexpectedEof, ctx)
        else
          parseMain { ctx with state := ctx.errorReturnState, errorReturnState := .stNone }
            addr chunk
    | _ => parseMain ctx addr chunk

/-- Driver feeding a document to the parser as a sequence of chunks, each given as an
address and the bytes at that address: the parser is called repeatedly with the
current chunk; a need-more-input result advances to the next chunk, the end of the
document or an error ends the run with that final code recorded, and any other code is
recorded as a token.  The fuel bounds the number of calls; none reports fuel
exhaustion or a diverging parse call. -/
def runChunked : Nat → Context → List (Nat × List Nat) → Option (List Code)
  | 0, _, _ => none
  | _ + 1, _, [] => some []
  | fuel + 1, ctx, (addr, chunk) :: rest =>
      match hoxml_parse ctx addr chunk with
      | none => none
      | some (code, ctx1) =>
          if code = .errorUnexpectedEof then runChunked fuel ctx1 rest
          else if code = .endOfDocument ∨ code.isErrorCode then some [code]
          else
            match runChunked fuel ctx1 ((addr, chunk) :: rest) with
            | none => none
            | some codes => some (code :: codes)

/-- Bytes of an ASCII document string. -/
def strBytes (s : String) : List Nat :=
  s.toList.map Char.toNat

/-- One observed token: the returned code together with the public tag, attribute,
value, and content strings of the context, each decoded from its buffer reference
(none for a NULL reference). -/
structure Obs where
  code : Code
  tagS : Option (List Nat)
  attrS : Option (List Nat)
  valueS : Option (List Nat)
  contentS : Option (List Nat)
  deriving Repr, DecidableEq

/-- The observation a caller makes after one hoxml_parse call. -/
def obsOf (code : Code) (ctx : Context) : Obs :=
  { code := code,
    tagS := ctx.tag.map (fun off => decodeSeq ctx.buffer off ctx.encoding),
    attrS := ctx.attrib.map (fun off => decodeSeq ctx.buffer off ctx.encoding),
    valueS := ctx.value.map (fun off => decodeSeq ctx.buffer off ctx.encoding),
    contentS := ctx.content.map (fun off => decodeSeq ctx.buffer off ctx.encoding) }

/-- Fixed-buffer run: hoxml_parse is called repeatedly with the whole document until
the end of the document or an error, recording each observation; the final result is
recorded too.  none reports fuel exhaustion or a diverging call. -/
def runBig : Nat → Context → Nat → List Nat → Option (List Obs)
  | 0, _, _, _ => none
  | fuel + 1, ctx, addr, doc =>
      match hoxml_parse ctx addr doc with
      | none => none
      | some (code, ctx1) =>
          if code = .endOfDocument ∨ code.isErrorCode then some [obsOf code ctx1]
          else
            match runBig fuel ctx1 addr doc with
            | none => none
            | some rest => some (obsOf code ctx1 :: rest)

/-- Growing run: like runBig, but every insufficient-memory result makes the caller
install the next buffer length from the schedule through hoxml_realloc and retry; the
insufficient-memory results themselves are not recorded.  An exhausted schedule, like
exhausted fuel, yields none. -/
def runGrow : Nat → Context → Nat → List Nat → List Nat → Option (List Obs)
  | 0, _, _, _, _ => none
  | fuel + 1, ctx, addr, doc, schedule =>
      match hoxml_parse ctx addr doc with
      | none => none
      | some (code, ctx1) =>
          if code = .errorInsufficientMemory then
            match schedule with
            | [] => none
            | sz :: sched => runGrow fuel (hoxml_realloc ctx1 sz) addr doc sched
          else if code = .endOfDocument ∨ code.isErrorCode then some [obsOf code ctx1]
          else
            match runGrow fuel ctx1 addr doc schedule with
            | none => none
            | some rest => some (obsOf code ctx1 :: rest)

end Hoxml

namespace Raytmx

/-- Outcome of the ParseDocument driver loop (raytmx.h lines 1520-1571) as a function
of the codes returned by successive hoxml_parse calls: reaching the end of the
document sets the success flag; an insufficient-memory result doubles the buffer
through hoxml_realloc and continues; any other error abandons the document with the
flag unset; every token code is dispatched to a handler function and the loop
continues.  The handlers communicate through the builder state only - no diagnostic
they emit feeds back into this outcome. -/
def parseDocumentIsSuccess : List Hoxml.Code → Bool
  | [] => false
  | c :: rest =>
      if c = .endOfDocument then true
      else if c = .errorInsufficientMemory then parseDocumentIsSuccess rest
      else if c.isErrorCode then false
      else parseDocumentIsSuccess rest

/-- First property of the given name in a list, the record a consumer reading the
array front to back finds. -/
def firstPropNamed (ps : List TmxProperty) (n : String) : Option TmxProperty :=
  ps.find? (fun p => p.name = n)

/-- A DEFLATE decompressor that always fails; the CSV path never consults it. -/
def noInflate : List Nat → Option (List Nat) :=
  fun _ => none

/-- A concrete tile layer declaring a 2 by 2 grid with CSV-encoded data. -/
def c10Layer : TmxTileLayer :=
  { width := 2, height := 2, encoding := some "csv", compression := none, tiles := none }

/-- A complete map document whose single 2 by 2 tile layer supplies only three
identifiers. -/
def c10Doc : List Nat :=
  Hoxml.strBytes
    "<map><layer width=\"2\" height=\"2\"><data encoding=\"csv\">1,2,3</data></layer></map>"

end Raytmx

namespace Hoxml

/-- The whole of the concrete document used for the chunking runs. -/
def c1Doc : List Nat := strBytes "<a/>"

/-- First chunk of the split document. -/
def c1Chunk1 : List Nat := strBytes "<a"

/-- Second chunk of the split document. -/
def c1Chunk2 : List Nat := strBytes "/>"

/-- A document whose DOCTYPE declaration appears after the root element began. -/
def c6Doc : List Nat := strBytes "<a><!D"

/-- First parse call on the misplaced-DOCTYPE document. -/
def c6Run1 : Option (Code × Context) := hoxml_parse (hoxml_init 64) 5 c6Doc

/-- Second parse call, reaching the misplaced-DOCTYPE error. -/
def c6Run2 : Option (Code × Context) := c6Run1.bind (fun p => hoxml_parse p.2 5 c6Doc)

/-- Third parse call, after the error was reported. -/
def c6Run3 : Option (Code × Context) := c6Run2.bind (fun p => hoxml_parse p.2 5 c6Doc)

/-- A context sitting in the malformed-syntax error state, for the witness run. -/
def c6ErrCtx : Context :=
  { hoxml_init 8 with state := .stErrMalformed }

end Hoxml

namespace Raytmx

/-- Instance property list of the template merge example: "hp" with value "5". -/
def c7InstProps : List TmxProperty := [{ name := "hp", value := "5" }]

/-- Template property list of the template merge example: "hp" with value "10". -/
def c7TmplProps : List TmxProperty := [{ name := "hp", value := "10" }]

/-- The instanced object of the property merge example. -/
def c7Inst : TmxObject :=
  { instanceObject with properties := some c7InstProps }

/-- The template object of the property merge example. -/
def c7Tmpl : TmxObject :=
  { templateObject with properties := some c7TmplProps }

end Raytmx

namespace Raytmx

/-- Identifier list of the decoder-equivalence example. -/
def c5Ids : List Nat := [1, 2]

/-- A zlib-wrapped payload for the decoder-equivalence example: the 0x78 header byte,
a filler second header byte, and a one-byte compressed body the example decompressor
recognizes. -/
def c5Zbytes : List Nat := [120, 156, 7]

/-- The example DEFLATE decompressor: it recognizes exactly the body of c5Zbytes and
yields the little-endian bytes of the example identifiers. -/
def c5Inflate : List Nat → Option (List Nat) :=
  fun s => if s = [7] then some (bytesOfGids c5Ids) else none

/-- Tile layer for the compression-error example: base64 encoding with the unsupported
compression name zstd, no tiles decoded yet. -/
def c9Layer : TmxTileLayer :=
  { width := 1, height := 1, encoding := some "base64", compression := some "zstd",
    tiles := none }

/-- Byte payload for the compression-error witness: the little-endian bytes of the
single identifier 1. -/
def c9Bytes : List Nat := [1, 0, 0, 0]

/-- Content characters of the undersized CSV layer: three identifiers for a layer
declared 2 by 2. -/
def c10Content : List Char := ['1', ',', '2', ',', '3']

/-- The token codes the parser emits for the undersized-layer document. -/
def c10Codes : List Hoxml.Code :=
  [.elementBegin, .elementBegin, .attributeTok, .attributeTok, .elementBegin,
   .attributeTok, .elementEnd, .elementEnd, .elementEnd, .endOfDocument]

end Raytmx

namespace Hoxml

/-- Document of the buffer-growth run: a five-character tag sized so that the tag
terminator is the first append to overflow a 25-byte working buffer. -/
def c2Doc : List Nat := strBytes "<abcde x=\"1\"/>"

/-- Replacement buffer lengths supplied to hoxml_realloc, one per insufficient-memory
result, each one byte larger than the last. -/
def c2Schedule : List Nat := [26, 27, 28, 29, 30]

/-- The observations of the run given a 200-byte buffer from the start: tag abcde,
attribute x, value 1 (byte lists of the ASCII codes). -/
def c2BigObs : List Obs :=
  [{ code := .elementBegin, tagS := some [97, 98, 99, 100, 101], attrS := none,
     valueS := none, contentS := none },
   { code := .attributeTok, tagS := some [97, 98, 99, 100, 101], attrS := some [120],
     valueS := some [49], contentS := none },
   { code := .elementEnd, tagS := some [97, 98, 99, 100, 101], attrS := none,
     valueS := none, contentS := none },
   { code := .endOfDocument, tagS := none, attrS := none, valueS := none,
     contentS := none }]

/-- The observations of the run that starts with a 25-byte buffer and grows it on each
insufficient-memory result: at the attribute event the tag string reads abcdex1 and
the attribute string x1 - the strings have run together. -/
def c2GrowObs : List Obs :=
  [{ code := .elementBegin, tagS := some [97, 98, 99, 100, 101], attrS := none,
     valueS := none, contentS := none },
   { code := .attributeTok, tagS := some [97, 98, 99, 100, 101, 120, 49],
     attrS := some [120, 49], valueS := some [49], contentS := none },
   { code := .elementEnd, tagS := some [97, 98, 99, 100, 101], attrS := none,
     valueS := none, contentS := none },
   { code := .endOfDocument, tagS := none, attrS := none, valueS := none,
     contentS := none }]

end Hoxml

/-! Theorems. -/

namespace Raytmx

/-- C3: refuted as stated; the code disagrees with the specified last-identifier value
on collection-of-images tilesets.  For the concrete collection tileset with firstGid 1
and one explicit tile of local id 0, LoadTMX computes lastGid as firstGid + (last
tile's id) - 1 = 0, while the specification's firstId + max(explicit tile id) is 1.
The specified value is the one consistent with the rest of LoadTMX (see the write at
index firstGid + id), so the code is in error. -/
theorem c3_collection_last_gid_off_by_one :
    lastGidOf collectionTileset = 0 ∧ specLastGid collectionTileset = 1 ∧
    lastGidOf collectionTileset ≠ specLastGid collectionTileset := by
  refine ⟨by decide, by decide, by decide⟩

/-- C4: refuted; not every write LoadTMX performs into the identifier-to-tile table is
in bounds.  For the map whose only tileset is the concrete collection tileset, the
allocated table length is 1 yet the population loop writes index 1, so the write at
firstGid + tile.id is out of bounds. -/
theorem c4_gid_table_write_out_of_bounds :
    gidsToTilesLengthOf [collectionTileset] = 1 ∧
    mapWriteGids [collectionTileset] = [1] ∧
    ¬ (∀ g ∈ mapWriteGids [collectionTileset], g < gidsToTilesLengthOf [collectionTileset]) := by
  refine ⟨by decide, by decide, by decide⟩

/-- C8: refuted; the scalar-field template merge does not copy every field the
instance left unset.  For an instance with no name attribute and explicit type
"goblin", merged with a template naming itself "cactus" with type "cactus", the close
handler leaves the name at the empty-string default (the defaults run before the
template is consulted, so the name test of line 2618 never fires) and overwrites the
instance's own type with the template's (line 2623 tests the instance string against
NULL with the wrong polarity). -/
theorem c8_template_scalar_merge_broken :
    (handleObjectClose instanceObject (some templateObject)).name = some "" ∧
    (handleObjectClose instanceObject (some templateObject)).name ≠ some "cactus" ∧
    (handleObjectClose instanceObject (some templateObject)).typeString = some "cactus" ∧
    (handleObjectClose instanceObject (some templateObject)).typeString ≠ some "goblin" := by
  refine ⟨by decide, by decide, by decide, by decide⟩

theorem hasPropertyNamed_append (ps : List TmxProperty) (t : TmxProperty) (n : String) :
    hasPropertyNamed (ps ++ [t]) n = (hasPropertyNamed ps n || decide (t.name = n)) := by
  simp [hasPropertyNamed]

theorem firstPropNamed_append (ps qs : List TmxProperty) (n : String) :
    firstPropNamed (ps ++ qs) n =
      (firstPropNamed ps n).elim (firstPropNamed qs n) some := by
  induction ps with
  | nil => simp [firstPropNamed]
  | cons p ps ih =>
      by_cases h : p.name = n
      · simp [firstPropNamed, List.find?, h]
      · simpa [firstPropNamed, List.find?, h] using ih

theorem hasPropertyNamed_cons (t : TmxProperty) (ts : List TmxProperty) (n : String) :
    hasPropertyNamed (t :: ts) n = (decide (t.name = n) || hasPropertyNamed ts n) := by
  simp [hasPropertyNamed]

theorem firstPropNamed_isSome (ps : List TmxProperty) (n : String) :
    (firstPropNamed ps n).isSome = hasPropertyNamed ps n := by
  induction ps with
  | nil => simp [firstPropNamed, hasPropertyNamed]
  | cons p ps ih =>
      by_cases h : p.name = n
      · simp [firstPropNamed, hasPropertyNamed, List.find?, h]
      · simpa [firstPropNamed, hasPropertyNamed, List.find?, h] using ih

theorem mergedPropertyList_names (ts : List TmxProperty) : ∀ (acc : List TmxProperty)
    (n : String), hasPropertyNamed (mergedPropertyList acc ts) n =
      (hasPropertyNamed acc n || hasPropertyNamed ts n) := by
  induction ts with
  | nil => intro acc n; simp [mergedPropertyList, hasPropertyNamed]
  | cons t ts ih =>
      intro acc n
      by_cases h : hasPropertyNamed acc t.name
      · rw [mergedPropertyList, if_pos h, ih, hasPropertyNamed_cons]
        by_cases hn : t.name = n
        · subst hn; rw [h]; simp
        · simp [hn]
      · rw [mergedPropertyList, if_neg h, ih, hasPropertyNamed_append, hasPropertyNamed_cons,
          Bool.or_assoc]

theorem mergedPropertyList_find_present (ts : List TmxProperty) :
    ∀ (acc : List TmxProperty) (n : String), hasPropertyNamed acc n = true →
      firstPropNamed (mergedPropertyList acc ts) n = firstPropNamed acc n := by
  induction ts with
  | nil => intro acc n _; rw [mergedPropertyList]
  | cons t ts ih =>
      intro acc n hn
      by_cases h : hasPropertyNamed acc t.name
      · rw [mergedPropertyList, if_pos h]; exact ih acc n hn
      · rw [mergedPropertyList, if_neg h]
        have hgrow : hasPropertyNamed (acc ++ [t]) n = true := by
          rw [hasPropertyNamed_append, hn, Bool.true_or]
        rw [ih (acc ++ [t]) n hgrow, firstPropNamed_append]
        have : (firstPropNamed acc n).isSome = true := by
          rw [firstPropNamed_isSome]; exact hn
        obtain ⟨p, hp⟩ := Option.isSome_iff_exists.mp this
        rw [hp]; rfl

theorem mergedPropertyList_find_absent (ts : List TmxProperty) :
    ∀ (acc : List TmxProperty) (n : String), hasPropertyNamed acc n = false →
      firstPropNamed (mergedPropertyList acc ts) n = firstPropNamed ts n := by
  induction ts with
  | nil =>
      intro acc n hn
      rw [mergedPropertyList]
      have : (firstPropNamed acc n).isSome = false := by
        rw [firstPropNamed_isSome]; exact hn
      cases hfp : firstPropNamed acc n with
      | none => simp [firstPropNamed]
      | some p => rw [hfp] at this; simp at this
  | cons t ts ih =>
      intro acc n hn
      by_cases h : hasPropertyNamed acc t.name
      · rw [mergedPropertyList, if_pos h]
        have htn : ¬ t.name = n := by
          intro he; rw [he] at h; rw [h] at hn; exact Bool.noConfusion hn
        rw [ih acc n hn]
        simp [firstPropNamed, List.find?, htn]
      · rw [mergedPropertyList, if_neg h]
        by_cases htn : t.name = n
        · have hgrow : hasPropertyNamed (acc ++ [t]) n = true := by
            rw [hasPropertyNamed_append, hn, htn]; simp
          rw [mergedPropertyList_find_present ts (acc ++ [t]) n hgrow, firstPropNamed_append]
          have hacc : (firstPropNamed acc n).isSome = false := by
            rw [firstPropNamed_isSome]; exact hn
          cases hfp : firstPropNamed acc n with
          | none => simp [firstPropNamed, List.find?, htn]
          | some p => rw [hfp] at hacc; simp at hacc
        · have hgrow : hasPropertyNamed (acc ++ [t]) n = false := by
            rw [hasPropertyNamed_append, hn]; simp [htn]
          rw [ih (acc ++ [t]) n hgrow]
          simp [firstPropNamed, List.find?, htn]

theorem applyObjectDefaults_properties (o : TmxObject) :
    (applyObjectDefaults o).properties = o.properties := by
  unfold applyObjectDefaults
  cases o.name <;> dsimp <;> split <;> rfl

theorem applyTemplateScalars_properties (t o : TmxObject) :
    (applyTemplateScalars t o).properties = o.properties := by
  simp only [applyTemplateScalars, apply_ite TmxObject.properties, ite_self]

/-- C7: confirmed.  When an object referencing a template closes with its own
property list and the template object brings one of its own, the resulting object
carries the merged list; the merged list's names are exactly the union of the two name
sets, a name the instance defines resolves to the instance's first property of that
name, and a name only the template defines resolves to the template's first property
of that name.  In particular a template property "hp"="10" together with an instance
property "hp"="5" resolves to "hp"="5" (see the witness). -/
theorem c7_template_property_merge (o t : TmxObject) (iprops tprops : List TmxProperty)
    (ho : o.properties = some iprops) (ht : t.properties = some tprops) :
    (handleObjectClose o (some t)).properties = some (mergedPropertyList iprops tprops) ∧
    (∀ n, hasPropertyNamed (mergedPropertyList iprops tprops) n =
      (hasPropertyNamed iprops n || hasPropertyNamed tprops n)) ∧
    (∀ n, hasPropertyNamed iprops n = true →
      firstPropNamed (mergedPropertyList iprops tprops) n = firstPropNamed iprops n) ∧
    (∀ n, hasPropertyNamed iprops n = false →
      firstPropNamed (mergedPropertyList iprops tprops) n = firstPropNamed tprops n) := by
  refine ⟨?_, fun n => mergedPropertyList_names tprops iprops n,
    fun n h => mergedPropertyList_find_present tprops iprops n h,
    fun n h => mergedPropertyList_find_absent tprops iprops n h⟩
  show (let o1 := applyObjectDefaults o
    let o2 := applyTemplateScalars t o1
    ({ o2 with properties := mergeObjectProperties o2.properties t.properties })).properties =
      some (mergedPropertyList iprops tprops)
  dsimp only
  rw [applyTemplateScalars_properties, applyObjectDefaults_properties, ho, ht]
  rfl

/-- Witness for C7 at the hp example: the instance defines "hp"="5", so the merged
object resolves "hp" to the instance's value "5" rather than the template's "10". -/
theorem c7_template_property_merge_witness :
    (handleObjectClose c7Inst (some c7Tmpl)).properties =
      some (mergedPropertyList c7InstProps c7TmplProps) ∧
    firstPropNamed (mergedPropertyList c7InstProps c7TmplProps) "hp" =
      some { name := "hp", value := "5" } := by
  have h := c7_template_property_merge c7Inst c7Tmpl c7InstProps c7TmplProps rfl rfl
  refine ⟨h.1, ?_⟩
  rw [h.2.2.1 "hp" (by decide)]
  decide

theorem decDigitFacts : ∀ d < 10, (Char.ofNat (d + 48)).toNat = d + 48 ∧
    isDigitChar (Char.ofNat (d + 48)) = true := by
  decide

theorem digit_not_separator (c : Char) (h : isDigitChar c = true) :
    isSpaceChar c = false ∧ c ≠ ',' ∧ c ≠ '-' ∧ c ≠ '+' := by
  have hn : 48 ≤ c.toNat ∧ c.toNat ≤ 57 := by simpa [isDigitChar] using h
  refine ⟨by simp [isSpaceChar]; omega, ?_, ?_, ?_⟩
  · intro he; rw [he] at h; exact absurd h (by decide)
  · intro he; rw [he] at h; exact absurd h (by decide)
  · intro he; rw [he] at h; exact absurd h (by decide)

theorem decRev_all_digits (n : Nat) : ∀ c ∈ decRev n, isDigitChar c = true := by
  induction n using Nat.strong_induction_on with
  | _ n ih =>
      rw [decRev]
      split
      · simp
      · rename_i hn
        intro c hc
        rcases List.mem_cons.mp hc with he | ht
        · rw [he]; exact (decDigitFacts (n % 10) (Nat.mod_lt n (by omega))).2
        · exact ih (n / 10) (Nat.div_lt_self (Nat.pos_of_ne_zero hn) (by omega)) c ht

theorem decRev_ne_nil (n : Nat) (hn : n ≠ 0) : decRev n ≠ [] := by
  rw [decRev]
  simp [hn]

theorem decChars_all_digits (n : Nat) : ∀ c ∈ decChars n, isDigitChar c = true := by
  unfold decChars
  split
  · intro c hc; simp at hc; rw [hc]; decide
  · intro c hc; exact decRev_all_digits n c (List.mem_reverse.mp hc)

theorem decChars_ne_nil (n : Nat) : decChars n ≠ [] := by
  unfold decChars
  split
  · simp
  · rename_i hn
    simpa using decRev_ne_nil n hn

theorem atoiDigits_snoc (xs : List Char) (c : Char) (hxs : ∀ x ∈ xs, isDigitChar x = true)
    (hc : isDigitChar c = true) : ∀ acc,
    atoiDigits (xs ++ [c]) acc = atoiDigits xs acc * 10 + (c.toNat - 48) := by
  induction xs with
  | nil => intro acc; simp [atoiDigits, hc]
  | cons x xs ih =>
      intro acc
      have hx := hxs x (List.mem_cons_self x xs)
      rw [List.cons_append, atoiDigits, if_pos hx, atoiDigits, if_pos hx]
      exact ih (fun y hy => hxs y (List.mem_cons_of_mem x hy)) _

theorem decRev_parse (n : Nat) : ∀ acc,
    atoiDigits (decRev n).reverse acc = acc * 10 ^ (decRev n).length + n := by
  induction n using Nat.strong_induction_on with
  | _ n ih =>
      intro acc
      by_cases hn : n = 0
      · subst hn; rw [decRev]; simp [atoiDigits]
      · rw [decRev]
        rw [dif_neg hn]
        rw [List.reverse_cons]
        rw [atoiDigits_snoc _ _
          (fun x hx => decRev_all_digits (n / 10) x (List.mem_reverse.mp hx))
          (decDigitFacts (n % 10) (Nat.mod_lt n (by omega))).2]
        rw [ih (n / 10) (Nat.div_lt_self (Nat.pos_of_ne_zero hn) (by omega)) acc]
        rw [(decDigitFacts (n % 10) (Nat.mod_lt n (by omega))).1]
        have hlen : (Char.ofNat (n % 10 + 48) :: decRev (n / 10)).length =
            (decRev (n / 10)).length + 1 := by simp
        rw [hlen, pow_succ]
        have := Nat.div_add_mod n 10
        ring_nf
        omega

theorem parse_decChars (n : Nat) : atoiDigits (decChars n) 0 = n := by
  unfold decChars
  split
  · rename_i h; rw [h]; decide
  · rw [decRev_parse n 0]; simp

theorem atoiToGid_decChars (n : Nat) (h : n < u32Mod) : atoiToGid (decChars n) = n := by
  have hdrop : (decChars n).dropWhile isSpaceChar = decChars n := by
    cases hc : decChars n with
    | nil => rfl
    | cons c rest =>
        rw [List.dropWhile_cons]
        have hd : isDigitChar c = true := by
          apply decChars_all_digits n
          rw [hc]; exact List.mem_cons_self c rest
        rw [(digit_not_separator c hd).1]
        simp
  rw [atoiToGid, hdrop]
  cases hc : decChars n with
  | nil => exact absurd hc (decChars_ne_nil n)
  | cons c rest =>
      have hd : isDigitChar c = true := by
        apply decChars_all_digits n
        rw [hc]; exact List.mem_cons_self c rest
      have hsep := digit_not_separator c hd
      dsimp only
      rw [if_neg hsep.2.2.1, if_neg hsep.2.2.2, ← hc, parse_decChars, Nat.mod_eq_of_lt h]

theorem csvGo_no_comma (xs : List Char) (hxs : ∀ x ∈ xs, x ≠ ',') : ∀ acc,
    csvGo acc xs = [acc ++ xs] := by
  induction xs with
  | nil => intro acc; simp [csvGo]
  | cons x xs ih =>
      intro acc
      rw [csvGo, if_neg (hxs x (List.mem_cons_self x xs))]
      rw [ih (fun y hy => hxs y (List.mem_cons_of_mem x hy))]
      simp

theorem csvGo_split (xs more : List Char) (hxs : ∀ x ∈ xs, x ≠ ',') : ∀ acc,
    csvGo acc (xs ++ ',' :: more) =
      (acc ++ xs) :: (if more.isEmpty then [] else csvGo [] more) := by
  induction xs with
  | nil => intro acc; rw [List.nil_append, csvGo, if_pos rfl]; simp
  | cons x xs ih =>
      intro acc
      rw [List.cons_append, csvGo, if_neg (hxs x (List.mem_cons_self x xs))]
      rw [ih (fun y hy => hxs y (List.mem_cons_of_mem x hy))]
      simp

theorem csvOfGids_ne_nil (ids : List Nat) (h : ids ≠ []) : csvOfGids ids ≠ [] := by
  match ids, h with
  | [n], _ => exact decChars_ne_nil n
  | n :: m :: rest, _ =>
      show decChars n ++ ',' :: csvOfGids (m :: rest) ≠ []
      intro he
      exact decChars_ne_nil n (List.append_eq_nil.mp he).1

theorem csvEntries_ofGids (ids : List Nat) :
    csvEntries (csvOfGids ids) = ids.map decChars := by
  match ids with
  | [] => rfl
  | [n] =>
      show csvEntries (decChars n) = _
      rw [csvEntries]
      rw [if_neg (by simpa [List.isEmpty_iff] using decChars_ne_nil n)]
      rw [csvGo_no_comma (decChars n)
        (fun x hx => (digit_not_separator x (decChars_all_digits n x hx)).2.1)]
      simp
  | n :: m :: rest =>
      show csvEntries (decChars n ++ ',' :: csvOfGids (m :: rest)) = _
      rw [csvEntries]
      rw [if_neg (by
        simp only [List.isEmpty_iff]
        intro he
        exact decChars_ne_nil n (List.append_eq_nil.mp he).1)]
      rw [csvGo_split (decChars n) (csvOfGids (m :: rest))
        (fun x hx => (digit_not_separator x (decChars_all_digits n x hx)).2.1)]
      rw [if_neg (by
        simpa [List.isEmpty_iff] using csvOfGids_ne_nil (m :: rest) (by simp))]
      have : csvGo [] (csvOfGids (m :: rest)) = csvEntries (csvOfGids (m :: rest)) := by
        rw [csvEntries,
          if_neg (by simpa [List.isEmpty_iff] using csvOfGids_ne_nil (m :: rest) (by simp))]
      rw [this, csvEntries_ofGids (m :: rest)]
      simp

theorem csvDecode_ofGids (ids : List Nat) (h : ∀ id ∈ ids, id < u32Mod) :
    csvDecode (csvOfGids ids) = ids := by
  rw [csvDecode, csvEntries_ofGids, List.map_map]
  have : ∀ id ∈ ids, (atoiToGid ∘ decChars) id = id := by
    intro id hid
    exact atoiToGid_decChars id (h id hid)
  calc ids.map (atoiToGid ∘ decChars) = ids.map id := List.map_congr_left this
    _ = ids := List.map_id ids

theorem b64_table : ∀ v < 64, b64ValOf (b64CharOf v) = some v ∧ b64CharOf v ≠ '=' ∧
    isSpaceChar (b64CharOf v) = false := by
  decide

theorem b64Encode_all_lt (bs : List Nat) (h : ∀ b ∈ bs, b < 256) :
    (b64Encode bs).dropWhile isSpaceChar = b64Encode bs := by
  match bs, h with
  | [], _ => rfl
  | [b1], h =>
      rw [b64Encode, List.dropWhile_cons,
        (b64_table (b1 / 4) (by have := h b1 (by simp); omega)).2.2]
      simp
  | [b1, b2], h =>
      rw [b64Encode, List.dropWhile_cons,
        (b64_table (b1 / 4) (by have := h b1 (by simp); omega)).2.2]
      simp
  | b1 :: b2 :: b3 :: rest, h =>
      rw [b64Encode, List.dropWhile_cons,
        (b64_table (b1 / 4) (by have := h b1 (by simp); omega)).2.2]
      simp

theorem b64_roundtrip : ∀ (bs : List Nat), (∀ b ∈ bs, b < 256) →
    b64Decode (b64Encode bs) = some bs
  | [], _ => rfl
  | [b1], h => by
      have hb1 : b1 < 256 := h b1 (by simp)
      rw [b64Encode, b64Decode, if_pos ⟨rfl, rfl, rfl⟩,
        (b64_table (b1 / 4) (by omega)).1, (b64_table (b1 % 4 * 16) (by omega)).1]
      simp only [Option.bind_eq_bind, Option.some_bind]
      have : b1 / 4 * 4 + b1 % 4 * 16 / 16 = b1 := by omega
      rw [this]; rfl
  | [b1, b2], h => by
      have hb1 : b1 < 256 := h b1 (by simp)
      have hb2 : b2 < 256 := h b2 (by simp)
      rw [b64Encode, b64Decode,
        if_neg (by
          intro hcon
          exact (b64_table (b2 % 16 * 4) (by omega)).2.1 hcon.1),
        if_pos ⟨rfl, rfl⟩,
        (b64_table (b1 / 4) (by omega)).1, (b64_table (b1 % 4 * 16 + b2 / 16) (by omega)).1,
        (b64_table (b2 % 16 * 4) (by omega)).1]
      simp only [Option.bind_eq_bind, Option.some_bind]
      have h1 : b1 / 4 * 4 + (b1 % 4 * 16 + b2 / 16) / 16 = b1 := by omega
      have h2 : (b1 % 4 * 16 + b2 / 16) % 16 * 16 + b2 % 16 * 4 / 4 = b2 := by omega
      rw [h1, h2]; rfl
  | b1 :: b2 :: b3 :: rest, h => by
      have hb1 : b1 < 256 := h b1 (by simp)
      have hb2 : b2 < 256 := h b2 (by simp)
      have hb3 : b3 < 256 := h b3 (by simp)
      have hrest : ∀ b ∈ rest, b < 256 := fun b hb => h b (by simp [hb])
      rw [b64Encode, b64Decode,
        if_neg (by
          intro hcon
          exact (b64_table (b2 % 16 * 4 + b3 / 64) (by omega)).2.1 hcon.1),
        if_neg (by
          intro hcon
          exact (b64_table (b3 % 64) (by omega)).2.1 hcon.1),
        (b64_table (b1 / 4) (by omega)).1, (b64_table (b1 % 4 * 16 + b2 / 16) (by omega)).1,
        (b64_table (b2 % 16 * 4 + b3 / 64) (by omega)).1, (b64_table (b3 % 64) (by omega)).1,
        b64_roundtrip rest hrest]
      simp only [Option.bind_eq_bind, Option.some_bind]
      have h1 : b1 / 4 * 4 + (b1 % 4 * 16 + b2 / 16) / 16 = b1 := by omega
      have h2 : (b1 % 4 * 16 + b2 / 16) % 16 * 16 + (b2 % 16 * 4 + b3 / 64) / 4 = b2 := by
        omega
      have h3 : (b2 % 16 * 4 + b3 / 64) % 4 * 64 + b3 % 64 = b3 := by omega
      rw [h1, h2, h3]; rfl

theorem bytesOfGids_all_lt (ids : List Nat) : ∀ b ∈ bytesOfGids ids, b < 256 := by
  intro b hb
  rw [bytesOfGids] at hb
  obtain ⟨id, _, hmem⟩ := List.mem_flatMap.mp hb
  simp only [u32LeBytes, List.mem_cons, List.not_mem_nil, or_false] at hmem
  rcases hmem with h | h | h | h
  all_goals omega

theorem gids_roundtrip : ∀ (ids : List Nat), (∀ id ∈ ids, id < u32Mod) →
    gidsOfBytes (bytesOfGids ids) = ids
  | [], _ => rfl
  | id :: rest, h => by
      have hid : id < 4294967296 := h id (List.mem_cons_self id rest)
      have hrest : ∀ i ∈ rest, i < u32Mod := fun i hi => h i (List.mem_cons_of_mem id hi)
      have hsplit : bytesOfGids (id :: rest) = id % 256 :: id / 256 % 256 ::
          id / 65536 % 256 :: id / 16777216 % 256 :: bytesOfGids rest := by
        simp [bytesOfGids, u32LeBytes]
      rw [hsplit, gidsOfBytes, gids_roundtrip rest hrest]
      congr 1
      omega

end Raytmx



namespace Raytmx

theorem tileLayerTiles_eq (inflate : List Nat → Option (List Nat)) (enc comp : Option String)
    (content : List Char) : tileLayerTiles inflate enc comp content =
      (handleDataClose inflate enc comp content).tiles := rfl

theorem handleDataClose_csv (inflate : List Nat → Option (List Nat)) (content : List Char) :
    handleDataClose inflate (some "csv") none content =
      { tiles := csvDecode content, diags := [] } := rfl

theorem handleDataClose_b64_plain (inflate : List Nat → Option (List Nat)) (bs : List Nat)
    (hbs : ∀ b ∈ bs, b < 256) :
    handleDataClose inflate (some "base64") none (b64Encode bs) =
      { tiles := gidsOfBytes bs, diags := [] } := by
  simp only [handleDataClose, b64Encode_all_lt bs hbs, b64_roundtrip bs hbs, if_true]

theorem handleDataClose_b64_zlib (inflate : List Nat → Option (List Nat)) (bs : List Nat)
    (hbs : ∀ b ∈ bs, b < 256) (h0 : bs.getD 0 0 = 120) :
    handleDataClose inflate (some "base64") (some "zlib") (b64Encode bs) =
      (match inflate (bs.drop 2) with
       | some decompressed =>
           if 0 < decompressed.length then { tiles := gidsOfBytes decompressed, diags := [] }
           else { tiles := [], diags := [LayerDiag.inflateFailed] }
       | none => { tiles := [], diags := [LayerDiag.inflateFailed] }) := by
  simp only [handleDataClose, b64Encode_all_lt bs hbs, b64_roundtrip bs hbs, if_true,
    if_pos (show ("zlib" = "gzip") ∨ True from Or.inr trivial),
    if_neg (show ¬("zlib" = "gzip") by decide)]
  rw [if_pos h0]

theorem handleDataClose_b64_unsupported (inflate : List Nat → Option (List Nat))
    (comp : String) (bs : List Nat) (hbs : ∀ b ∈ bs, b < 256)
    (hc : ¬(comp = "gzip" ∨ comp = "zlib")) :
    handleDataClose inflate (some "base64") (some comp) (b64Encode bs) =
      { tiles := [], diags := [LayerDiag.unsupportedCompression] } := by
  simp only [handleDataClose, b64Encode_all_lt bs hbs, b64_roundtrip bs hbs, if_true]
  rw [if_neg hc]

theorem handleDataClose_b64_gzip_badheader (inflate : List Nat → Option (List Nat))
    (bs : List Nat) (hbs : ∀ b ∈ bs, b < 256)
    (hh : ¬(bs.getD 0 0 = 31 ∧ bs.getD 1 0 = 139 ∧ bs.getD 2 0 = 8)) :
    handleDataClose inflate (some "base64") (some "gzip") (b64Encode bs) =
      { tiles := [], diags := [LayerDiag.badGzipHeader] } := by
  simp only [handleDataClose, b64Encode_all_lt bs hbs, b64_roundtrip bs hbs, if_true,
    if_pos (show True ∨ ("gzip" = "zlib") from Or.inl trivial)]
  rw [if_neg hh]

theorem handleDataClose_b64_zlib_badheader (inflate : List Nat → Option (List Nat))
    (bs : List Nat) (hbs : ∀ b ∈ bs, b < 256) (hh : bs.getD 0 0 ≠ 120) :
    handleDataClose inflate (some "base64") (some "zlib") (b64Encode bs) =
      { tiles := [], diags := [LayerDiag.badZlibHeader] } := by
  simp only [handleDataClose, b64Encode_all_lt bs hbs, b64_roundtrip bs hbs, if_true,
    if_pos (show ("zlib" = "gzip") ∨ True from Or.inr trivial),
    if_neg (show ¬("zlib" = "gzip") by decide)]
  rw [if_neg hh]

/-- C5: confirmed, over the spec-modelled base64 and DEFLATE collaborators.  For every
identifier list (each below 2^32) the three encodings of the same logical identifiers
- CSV of the decimal identifiers, uncompressed base64 of their little-endian four-byte
serialization, and zlib-wrapped base64 whose decompression yields that same
serialization - all leave the identical identifier array on a fresh tile layer. -/
theorem c5_decoder_equivalence (ids zbytes : List Nat)
    (inflate : List Nat → Option (List Nat))
    (hids : ∀ id ∈ ids, id < u32Mod)
    (hzb : ∀ b ∈ zbytes, b < 256)
    (hz0 : zbytes.getD 0 0 = 120)
    (hinf : inflate (zbytes.drop 2) = some (bytesOfGids ids)) :
    tileLayerTiles noInflate (some "csv") none (csvOfGids ids) = ids ∧
    tileLayerTiles noInflate (some "base64") none (b64Encode (bytesOfGids ids)) = ids ∧
    tileLayerTiles inflate (some "base64") (some "zlib") (b64Encode zbytes) = ids := by
  refine ⟨?_, ?_, ?_⟩
  · rw [tileLayerTiles_eq, handleDataClose_csv]
    exact csvDecode_ofGids ids hids
  · rw [tileLayerTiles_eq,
      handleDataClose_b64_plain noInflate (bytesOfGids ids) (bytesOfGids_all_lt ids)]
    exact gids_roundtrip ids hids
  · rw [tileLayerTiles_eq, handleDataClose_b64_zlib inflate zbytes hzb hz0, hinf]
    cases ids with
    | nil => rfl
    | cons id rest =>
        have hlen : 0 < (bytesOfGids (id :: rest)).length := by
          simp [bytesOfGids, u32LeBytes]
        show (if 0 < (bytesOfGids (id :: rest)).length then
            ({ tiles := gidsOfBytes (bytesOfGids (id :: rest)), diags := [] } :
              DecodedLayerData)
          else { tiles := [], diags := [LayerDiag.inflateFailed] }).tiles = id :: rest
        rw [if_pos hlen]
        exact gids_roundtrip (id :: rest) hids

/-- Witness for C5 at the identifiers 1 and 2, with the example zlib payload and the
example decompressor. -/
theorem c5_decoder_equivalence_witness :
    tileLayerTiles noInflate (some "csv") none (csvOfGids c5Ids) = c5Ids ∧
    tileLayerTiles noInflate (some "base64") none (b64Encode (bytesOfGids c5Ids)) = c5Ids ∧
    tileLayerTiles c5Inflate (some "base64") (some "zlib") (b64Encode c5Zbytes) = c5Ids :=
  c5_decoder_equivalence c5Ids c5Zbytes c5Inflate (by decide) (by decide) (by decide)
    (by decide)

theorem parseDocumentIsSuccess_clean (codes : List Hoxml.Code)
    (h : ∀ c ∈ codes, c.isErrorCode = false) :
    parseDocumentIsSuccess (codes ++ [Hoxml.Code.endOfDocument]) = true := by
  induction codes with
  | nil => rfl
  | cons c rest ih =>
      rw [List.cons_append, parseDocumentIsSuccess]
      by_cases hc : c = .endOfDocument
      · rw [if_pos hc]
      · rw [if_neg hc]
        have hcerr := h c (List.mem_cons_self c rest)
        by_cases hm : c = .errorInsufficientMemory
        · subst hm; exact absurd hcerr (by decide)
        · rw [if_neg hm, hcerr]
          exact ih (fun d hd => h d (List.mem_cons_of_mem c hd))

/-- C9: confirmed in the builder model.  A base64 payload whose gzip header is not
0x1F 0x8B 0x08, whose zlib header byte is not 0x78, or whose compression name is
neither gzip nor zlib stages no tiles and emits a diagnostic; the layer then closes
with an empty (but allocated) identifier array; and no diagnostic feeds back into the
document outcome - any code sequence free of parser error codes still drives
ParseDocument to success when the end of the document arrives. -/
theorem c9_compression_errors_layer_scoped (inflate : List Nat → Option (List Nat))
    (comp : String) (bs : List Nat) (layer : TmxTileLayer)
    (hbs : ∀ b ∈ bs, b < 256)
    (henc : layer.encoding = some "base64")
    (hcomp : layer.compression = some comp)
    (htiles : layer.tiles = none)
    (hbad : (comp = "gzip" ∧ ¬(bs.getD 0 0 = 31 ∧ bs.getD 1 0 = 139 ∧ bs.getD 2 0 = 8)) ∨
            (comp = "zlib" ∧ bs.getD 0 0 ≠ 120) ∨
            (comp ≠ "gzip" ∧ comp ≠ "zlib")) :
    (handleDataClose inflate (some "base64") (some comp) (b64Encode bs)).tiles = [] ∧
    (handleDataClose inflate (some "base64") (some comp) (b64Encode bs)).diags ≠ [] ∧
    (loadTileLayer inflate layer (b64Encode bs)).tiles = some [] ∧
    (∀ codes : List Hoxml.Code, (∀ c ∈ codes, c.isErrorCode = false) →
      parseDocumentIsSuccess (codes ++ [Hoxml.Code.endOfDocument]) = true) := by
  have hclose : (handleDataClose inflate (some "base64") (some comp) (b64Encode bs)).tiles
        = [] ∧
      (handleDataClose inflate (some "base64") (some comp) (b64Encode bs)).diags ≠ [] := by
    rcases hbad with ⟨hcz, hh⟩ | ⟨hcz, hh⟩ | ⟨hg, hz⟩
    · subst hcz
      rw [handleDataClose_b64_gzip_badheader inflate bs hbs hh]
      exact ⟨rfl, by decide⟩
    · subst hcz
      rw [handleDataClose_b64_zlib_badheader inflate bs hbs hh]
      exact ⟨rfl, by decide⟩
    · rw [handleDataClose_b64_unsupported inflate comp bs hbs (by
        intro hor; rcases hor with h | h
        · exact hg h
        · exact hz h)]
      exact ⟨rfl, by decide⟩
  refine ⟨hclose.1, hclose.2, ?_, parseDocumentIsSuccess_clean⟩
  unfold loadTileLayer
  rw [henc, hcomp, htiles]
  show (handleLayerClose
      (handleDataClose inflate (some "base64") (some comp) (b64Encode bs)).tiles none).1 =
    some []
  rw [hclose.1]
  rfl

/-- Witness for C9 at the unsupported compression name zstd with a four-byte payload:
the layer stages nothing, a diagnostic is emitted, the layer closes with an empty
array, and a one-token error-free code stream still succeeds. -/
theorem c9_compression_errors_layer_scoped_witness :
    (handleDataClose noInflate (some "base64") (some "zstd") (b64Encode c9Bytes)).tiles
      = [] ∧
    (handleDataClose noInflate (some "base64") (some "zstd") (b64Encode c9Bytes)).diags
      ≠ [] ∧
    (loadTileLayer noInflate c9Layer (b64Encode c9Bytes)).tiles = some [] ∧
    parseDocumentIsSuccess ([Hoxml.Code.elementBegin] ++ [Hoxml.Code.endOfDocument])
      = true :=
  have h := c9_compression_errors_layer_scoped noInflate "zstd" c9Bytes c9Layer
    (by decide) rfl rfl rfl (Or.inr (Or.inr (by decide)))
  ⟨h.1, h.2.1, h.2.2.1, h.2.2.2 [Hoxml.Code.elementBegin] (by decide)⟩

set_option maxRecDepth 100000 in
/-- C10: refuted; a successfully loaded map can hold a tile layer whose flattened
identifier array length differs from the declared width times height.  The concrete
document declares a 2 by 2 layer but supplies only three CSV identifiers: the parser
accepts the whole document (the code stream ends in the end-of-document code and
ParseDocument reports success), yet the layer's array is [1, 2, 3] of length 3, not 4.
No handler checks the staged count against width times height. -/
theorem c10_tile_array_length_counterexample :
    Hoxml.runChunked 64 (Hoxml.hoxml_init 256) [(100, c10Doc)] = some c10Codes ∧
    parseDocumentIsSuccess c10Codes = true ∧
    (loadTileLayer noInflate c10Layer c10Content).tiles = some [1, 2, 3] ∧
    ((loadTileLayer noInflate c10Layer c10Content).tiles.getD []).length ≠
      c10Layer.width * c10Layer.height := by
  refine ⟨by rfl, by decide, by rfl, by decide⟩

/-- C10 amended: the loader performs no dimension validation; a fresh tile layer's
final identifier array is exactly the list its data element staged, whatever the
declared width and height. -/
theorem c10_tile_array_length_amended (inflate : List Nat → Option (List Nat))
    (layer : TmxTileLayer) (content : List Char) (h : layer.tiles = none) :
    (loadTileLayer inflate layer content).tiles =
      some (handleDataClose inflate layer.encoding layer.compression content).tiles := by
  unfold loadTileLayer
  rw [h]
  rfl

/-- Witness for the amended C10 at the undersized CSV layer. -/
theorem c10_tile_array_length_amended_witness :
    c10Layer.tiles = none ∧
    (loadTileLayer noInflate c10Layer c10Content).tiles =
      some (handleDataClose noInflate c10Layer.encoding c10Layer.compression
        c10Content).tiles :=
  ⟨rfl, c10_tile_array_length_amended noInflate c10Layer c10Content rfl⟩

end Raytmx

namespace Hoxml

theorem depthFlags_nil (ctx : Context) (h : ctx.stack = []) : depthFlags ctx = ctx := by
  unfold depthFlags
  rw [h]

theorem post_cleanup_none (ctx : Context) (h : ctx.postState = .psNone) :
    hoxml_post_state_cleanup ctx = (false, ctx) := by
  unfold hoxml_post_state_cleanup
  rw [h]

theorem parseLoop_notLoop (fuel : Nat) (ctx : Context) (chunk : List Nat)
    (prevIt prevSl : Nat) (hf : fuel ≠ 0)
    (hnl : ctx.state.isLoopState = false)
    (hnm : ctx.state ≠ .stErrInsufficientMemory) :
    parseLoop fuel ctx chunk prevIt prevSl = some (Code.errorMalformed, ctx) := by
  obtain ⟨m, rfl⟩ : ∃ m, fuel = m + 1 := ⟨fuel - 1, by omega⟩
  simp only [parseLoop]
  rw [if_pos (by simp [hnl])]
  unfold afterLoop
  rw [if_neg hnm]

set_option maxRecDepth 100000 in
/-- C1: refuted; the token stream is not invariant under the chunk's buffer address.
The four-byte document parsed whole, or split in two chunks handed over at two
different addresses, yields the begin, end, and end-of-document codes; the same two
chunks handed over at the same address yield no tokens at all - the input-change test
of hoxml.h line 405 compares addresses only, so the second call never sees the new
bytes and asks for more input forever. -/
theorem c1_same_address_chunking_diverges :
    runChunked 32 (hoxml_init 64) [(100, c1Doc)] =
      some [Code.elementBegin, Code.elementEnd, Code.endOfDocument] ∧
    runChunked 32 (hoxml_init 64) [(100, c1Chunk1), (200, c1Chunk2)] =
      some [Code.elementBegin, Code.elementEnd, Code.endOfDocument] ∧
    runChunked 32 (hoxml_init 64) [(100, c1Chunk1), (100, c1Chunk2)] = some [] := by
  refine ⟨by rfl, by rfl, by rfl⟩

set_option maxRecDepth 100000 in
/-- C6: refuted as stated; the misplaced-DOCTYPE error is not sticky.  On the document
whose DOCTYPE declaration follows the root element, the second parse call reports the
invalid-DOCTYPE error, but the third call on the same context returns the
malformed-syntax code, not the same error code again. -/
theorem c6_doctype_error_not_sticky :
    c6Run2.map Prod.fst = some Code.errorInvalidDoctypeDecl ∧
    c6Run3.map Prod.fst = some Code.errorMalformed ∧
    Code.errorInvalidDoctypeDecl ≠ Code.errorMalformed := by
  refine ⟨by rfl, by rfl, by decide⟩

theorem depthFlags_state (ctx : Context) : (depthFlags ctx).state = ctx.state := by
  unfold depthFlags
  cases ctx.stack <;> rfl

theorem depthFlags_postState (ctx : Context) :
    (depthFlags ctx).postState = ctx.postState := by
  unfold depthFlags
  cases ctx.stack <;> rfl

theorem depthFlags_isInit (ctx : Context) : (depthFlags ctx).isInit = ctx.isInit := by
  unfold depthFlags
  cases ctx.stack <;> rfl

/-- C6 amended: stickiness holds state-wise with one exception.  A context parked in
the internal, malformed-syntax, encoding, tag-mismatch, or document-declaration error
state answers every further call with the matching code, the context unchanged apart
from the pending depth-flag bookkeeping applied at the top of every call; a context in
the misplaced-DOCTYPE error state - the one error state the dispatch switch of
hoxml.h lines 360-397 does not list - instead answers with the malformed-syntax code
from then on, its state still the DOCTYPE error state (so all later calls also return
the malformed-syntax code). -/
theorem c6_error_stickiness (ctx : Context) (addr : Nat) (chunk : List Nat)
    (hinit : ctx.isInit = true) (hch : chunk.length ≠ 0)
    (hpost : ctx.postState = .psNone) :
    (ctx.state = .stErrInternal →
      hoxml_parse ctx addr chunk = some (Code.errorInternal, depthFlags ctx)) ∧
    (ctx.state = .stErrMalformed →
      hoxml_parse ctx addr chunk = some (Code.errorMalformed, depthFlags ctx)) ∧
    (ctx.state = .stErrEncoding →
      hoxml_parse ctx addr chunk = some (Code.errorEncoding, depthFlags ctx)) ∧
    (ctx.state = .stErrTagMismatch →
      hoxml_parse ctx addr chunk = some (Code.errorTagMismatch, depthFlags ctx)) ∧
    (ctx.state = .stErrInvalidDocDecl →
      hoxml_parse ctx addr chunk = some (Code.errorInvalidDocDecl, depthFlags ctx)) ∧
    (ctx.state = .stErrInvalidDoctypeDecl →
      ∃ ctx2, hoxml_parse ctx addr chunk = some (Code.errorMalformed, ctx2) ∧
        ctx2.state = .stErrInvalidDoctypeDecl) := by
  have hvalid : ¬(¬ ctx.isInit = true ∨ chunk.length = 0) := by
    simp [hinit, hch]
  refine ⟨?_, ?_, ?_, ?_, ?_, ?_⟩
  all_goals intro hs
  all_goals have hs2 : (depthFlags ctx).state = ctx.state := depthFlags_state ctx
  · simp only [hoxml_parse, if_neg hvalid, hs2, hs]
  · simp only [hoxml_parse, if_neg hvalid, hs2, hs]
  · simp only [hoxml_parse, if_neg hvalid, hs2, hs]
  · simp only [hoxml_parse, if_neg hvalid, hs2, hs]
  · simp only [hoxml_parse, if_neg hvalid, hs2, hs]
  · have hclean := post_cleanup_none (depthFlags ctx)
      ((depthFlags_postState ctx).trans hpost)
    by_cases haddr : (depthFlags ctx).xmlAddr ≠ addr
    · refine ⟨{ depthFlags ctx with
          xmlAddr := addr, xmlLength := chunk.length, iterator := 0 },
        ?_, (depthFlags_state ctx).trans hs⟩
      simp only [hoxml_parse, if_neg hvalid, hs2, hs, parseMain, hclean]
      rw [if_pos haddr]
      exact parseLoop_notLoop _ _ _ _ _ (by omega)
        (by show PState.isLoopState .stErrInvalidDoctypeDecl = false; decide)
        (by show PState.stErrInvalidDoctypeDecl ≠ PState.stErrInsufficientMemory; decide)
    · refine ⟨depthFlags ctx, ?_, (depthFlags_state ctx).trans hs⟩
      simp only [hoxml_parse, if_neg hvalid, hs2, hs, parseMain, hclean]
      rw [if_neg haddr]
      exact parseLoop_notLoop _ _ _ _ _ (by omega)
        (by rw [depthFlags_state ctx, hs]; decide)
        (by rw [depthFlags_state ctx, hs]; decide)

/-- Witness for the amended C6: the concrete context parked in the malformed-syntax
state answers a further call on the DOCTYPE document with the malformed-syntax code
and its state unchanged. -/
theorem c6_error_stickiness_witness :
    hoxml_parse c6ErrCtx 5 c6Doc = some (Code.errorMalformed, depthFlags c6ErrCtx) :=
  (c6_error_stickiness c6ErrCtx 5 c6Doc rfl (by decide) rfl).2.1 rfl

end Hoxml

namespace Hoxml

set_option maxRecDepth 400000 in
/-- C2: refuted; growing the buffer on demand does not reproduce the token stream of a
large buffer.  On the fourteen-byte document with a five-character tag, a 200-byte
buffer reports tag abcde, attribute x, value 1; starting from 25 bytes and growing one
byte per insufficient-memory result reports, at the same attribute event, the tag
string abcdex1 and the attribute string x1.  hoxml_append_terminator (hoxml.h lines
1077-1092) sets the terminated flag before its capacity check, so when the terminator
itself overflows, the retry after hoxml_realloc finds the string already marked
terminated and writes nothing: the end pointer is never advanced, and every later
append lands one byte early, overwriting the byte the terminator should occupy, so
the public strings run together. -/
theorem c2_buffer_growth_not_invariant :
    runBig 64 (hoxml_init 200) 100 c2Doc = some c2BigObs ∧
    runGrow 64 (hoxml_init 25) 100 c2Doc c2Schedule = some c2GrowObs ∧
    c2BigObs ≠ c2GrowObs := by
  refine ⟨by rfl, by rfl, by decide⟩

end Hoxml
